import Mathlib

/-!
# Verification of the dexter_core testing-script interaction layer

Shallow embedding of `testing_scripts/mixin_dexter_helper.py`,
`testing_scripts/simulation_script.py` and `testing_scripts/config.py`
(dexter-zone/dexter_core), together with proofs about the query façade,
the execute façade, the configuration table, and the base64/JSON
encoding of the nested exit-pool payload.

Modelling conventions:
* Python values reachable in these scripts (None, int, str, bool, list,
  dict) are the inductive `PyVal`; a Python `dict` is an insertion-ordered
  association list, as in CPython.
* A Python `dict` literal evaluates its entries in order and raises
  `TypeError` when a key is unhashable (`list`/`dict` values); this is
  `mkDict` in the `Except` monad.  Assigning an existing key overwrites
  its value in place, as in CPython.
* The chain client's `wasm.contract_query` is an arbitrary function from
  a query call to `Except PyErr PyVal`; `tx.broadcast` is an arbitrary
  function from a signed transaction to `Except PyErr PyVal`.  Every
  façade operation also returns the list of calls it handed to the
  client, so that "sends exactly one request" is a provable statement.
* `try: ... except: return None` around a body of type `Except PyErr α`
  is `tryExceptNone`.
-/

/-- Python runtime values used by the scripts. -/
inductive PyVal where
  | none : PyVal
  | int : Int → PyVal
  | str : String → PyVal
  | bool : Bool → PyVal
  | list : List PyVal → PyVal
  | dict : List (PyVal × PyVal) → PyVal

/-- Python exceptions that the embedded code can raise. -/
inductive PyErr where
  | typeError (msg : String)
  | nameError (msg : String)
  | lcdError (msg : String)
  deriving DecidableEq

/-- Whether a Python value is hashable (usable as a `dict` key):
`list` and `dict` are unhashable, the atoms are hashable. -/
def PyVal.hashable : PyVal → Bool
  | .list _ => false
  | .dict _ => false
  | _ => true

/-- Python `==` restricted to the hashable atoms that can appear as
`dict` keys in these scripts (`None`, `int`, `str`, `bool`).  On
unhashable values it is never consulted, because `mkDict` raises first. -/
def PyVal.atomEq : PyVal → PyVal → Bool
  | .none, .none => true
  | .int a, .int b => a == b
  | .str a, .str b => a == b
  | .bool a, .bool b => a == b
  | _, _ => false

/-- Insert a key/value pair into an insertion-ordered Python dict:
an existing equal key is overwritten in place, a new key is appended. -/
def dictInsert (d : List (PyVal × PyVal)) (k v : PyVal) : List (PyVal × PyVal) :=
  if d.any (fun p => PyVal.atomEq p.1 k) then
    d.map (fun p => if PyVal.atomEq p.1 k then (p.1, v) else p)
  else
    d ++ [(k, v)]

/-- Evaluate a Python dict literal: entries in order, `TypeError` on the
first unhashable key. -/
def mkDictAux (acc : List (PyVal × PyVal)) :
    List (PyVal × PyVal) → Except PyErr (List (PyVal × PyVal))
  | [] => .ok acc
  | (k, v) :: rest =>
      if k.hashable then mkDictAux (dictInsert acc k v) rest
      else .error (.typeError "unhashable type")

/-- A Python dict literal as a `PyVal`, or a raised `TypeError`. -/
def mkDict (entries : List (PyVal × PyVal)) : Except PyErr PyVal :=
  (mkDictAux [] entries).map PyVal.dict

/-- `try: body except: return None` — any raised error becomes `None`
(the bare `except:` in the query helpers). -/
def tryExceptNone {α : Type} : Except PyErr α → Option α
  | .ok a => some a
  | .error _ => Option.none

/-- The keys of a `PyVal.dict`, in order (`[]` for non-dicts). -/
def PyVal.keys : PyVal → List PyVal
  | .dict d => d.map Prod.fst
  | _ => []

/-- Whether a `PyVal.dict` contains the given key. -/
def PyVal.hasKey (v k : PyVal) : Bool :=
  (v.keys).any (fun k₀ => PyVal.atomEq k₀ k)

/-- First value bound to a string key in an association list. -/
def lookupStr : List (PyVal × PyVal) → String → Option PyVal
  | [], _ => Option.none
  | (PyVal.str k, v) :: rest, s => if k = s then some v else lookupStr rest s
  | _ :: rest, s => lookupStr rest s

/-- Lookup of a string key in a `PyVal.dict`. -/
def PyVal.getStr (v : PyVal) (s : String) : Option PyVal :=
  match v with
  | .dict d => lookupStr d s
  | _ => Option.none

/-! ## Query façade

Embedding of the twelve query helpers.  Each body is the Python
`try: sim_response = self.client.wasm.contract_query(addr, payload); return sim_response
except: return None`.  The payload expression is evaluated inside the
`try`, so a `TypeError` raised while building the dict literal is also
swallowed.  The second component of the result records the query calls
actually handed to the chain client. -/

/-- One `wasm.contract_query` call: target contract address and payload. -/
structure QueryCall where
  contract_addr : String
  payload : PyVal

/-- The chain client's generic contract-query entry point: decoded
response, or a raised error (transport, decode, contract rejection). -/
def Client : Type := QueryCall → Except PyErr PyVal

/-- `try:` build the payload, issue the query, return the response;
`except: return None`.  No call reaches the client when the payload
construction raises; exactly one call is issued otherwise. -/
def runQuery (client : Client) (contract_addr : String)
    (payloadE : Except PyErr PyVal) : Option PyVal × List QueryCall :=
  match payloadE with
  | .error _ => (Option.none, [])
  | .ok p =>
      match client ⟨contract_addr, p⟩ with
      | .ok r => (some r, [⟨contract_addr, p⟩])
      | .error _ => (Option.none, [⟨contract_addr, p⟩])

/-- `{"config":{}}` query (vault). -/
def query_vault_config (client : Client) (contract_addr : String) :
    Option PyVal × List QueryCall :=
  runQuery client contract_addr (.ok (.dict [(.str "config", .dict [])]))

/-- `{"query_rigistery": {pool_type: pool_type}}` — note: the source uses
the *value* of `pool_type` as the inner dict key (unquoted name in the
Python dict literal). -/
def query_vault_query_registery (client : Client) (contract_addr : String)
    (pool_type : PyVal) : Option PyVal × List QueryCall :=
  runQuery client contract_addr <| do
    let inner ← mkDict [(pool_type, pool_type)]
    pure (.dict [(.str "query_rigistery", inner)])

/-- `{"get_pool_by_id": {pool_id: pool_id}}` — the value of `pool_id`
is used as the inner dict key. -/
def query_vault_GetPoolById (client : Client) (contract_addr : String)
    (pool_id : PyVal) : Option PyVal × List QueryCall :=
  runQuery client contract_addr <| do
    let inner ← mkDict [(pool_id, pool_id)]
    pure (.dict [(.str "get_pool_by_id", inner)])

/-- `{"get_pool_by_address": {pool_addr: pool_addr}}` — the value of
`pool_addr` is used as the inner dict key. -/
def query_vault_GetPoolByAddress (client : Client) (contract_addr : String)
    (pool_addr : PyVal) : Option PyVal × List QueryCall :=
  runQuery client contract_addr <| do
    let inner ← mkDict [(pool_addr, pool_addr)]
    pure (.dict [(.str "get_pool_by_address", inner)])

/-- `{"config":{}}` query (pool). -/
def query_pool_config (client : Client) (contract_addr : String) :
    Option PyVal × List QueryCall :=
  runQuery client contract_addr (.ok (.dict [(.str "config", .dict [])]))

/-- `{"fee_params":{}}` query. -/
def query_pool_fee_params (client : Client) (contract_addr : String) :
    Option PyVal × List QueryCall :=
  runQuery client contract_addr (.ok (.dict [(.str "fee_params", .dict [])]))

/-- `{"pool_id":{}}` query. -/
def query_pool_pool_id (client : Client) (contract_addr : String) :
    Option PyVal × List QueryCall :=
  runQuery client contract_addr (.ok (.dict [(.str "pool_id", .dict [])]))

/-- `{"on_join_pool": {assets_in: ..., mint_amount: ..., slippage_tolerance: ...}}`
— all three parameter *values* are used as the inner dict keys. -/
def query_pool_on_join_pool (client : Client) (contract_addr : String)
    (assets_in mint_amount slippage_tolerance : PyVal) :
    Option PyVal × List QueryCall :=
  runQuery client contract_addr <| do
    let inner ← mkDict [(assets_in, assets_in), (mint_amount, mint_amount),
      (slippage_tolerance, slippage_tolerance)]
    pure (.dict [(.str "on_join_pool", inner)])

/-- `{"on_exit_pool": {assets_out: ..., burn_amount: ...}}` — parameter
values used as inner dict keys. -/
def query_pool_on_exit_pool (client : Client) (contract_addr : String)
    (assets_out burn_amount : PyVal) : Option PyVal × List QueryCall :=
  runQuery client contract_addr <| do
    let inner ← mkDict [(assets_out, assets_out), (burn_amount, burn_amount)]
    pure (.dict [(.str "on_exit_pool", inner)])

/-- `{"on_swap": {swap_type: ..., offer_asset: ..., ask_asset: ..., amount: ...,
max_spread: ..., belief_price: ...}}` — parameter values used as inner dict keys. -/
def query_pool_on_swap (client : Client) (contract_addr : String)
    (swap_type offer_asset ask_asset amount max_spread belief_price : PyVal) :
    Option PyVal × List QueryCall :=
  runQuery client contract_addr <| do
    let inner ← mkDict [(swap_type, swap_type), (offer_asset, offer_asset),
      (ask_asset, ask_asset), (amount, amount), (max_spread, max_spread),
      (belief_price, belief_price)]
    pure (.dict [(.str "on_swap", inner)])

/-- `{"cumulative_price": {offer_asset: ..., ask_asset: ...}}` — parameter
values used as inner dict keys. -/
def query_cumulative_price (client : Client) (contract_addr : String)
    (offer_asset ask_asset : PyVal) : Option PyVal × List QueryCall :=
  runQuery client contract_addr <| do
    let inner ← mkDict [(offer_asset, offer_asset), (ask_asset, ask_asset)]
    pure (.dict [(.str "cumulative_price", inner)])

/-- `{"cumulative_prices":{}}` query. -/
def query_cumulative_prices (client : Client) (contract_addr : String) :
    Option PyVal × List QueryCall :=
  runQuery client contract_addr (.ok (.dict [(.str "cumulative_prices", .dict [])]))

/-! ## Execute façade

Embedding of the execute helpers.  Each body is
`msg = {...}` (a dict literal, which may raise `TypeError` on an
unhashable key — not wrapped in any `try`), then
`convertMsgPrep = MsgExecuteContract(wallet.key.acc_address, target, msg)`,
`tx = wallet.create_and_sign_tx(msgs=[convertMsgPrep], fee=Fee(5000000, Coins(uxprt=6250000)))`,
`res = self.client.tx.broadcast(tx)` and then the method falls off its
end, returning Python `None` — the value bound to `res` is discarded.
There is no `try`/`except`: construction and broadcast errors propagate.
The second component records the transactions handed to `tx.broadcast`. -/

/-- `MsgExecuteContract(sender, contract, msg)`. -/
structure MsgExecuteContract where
  sender : String
  contract : String
  msg : PyVal

/-- `Fee(gas_limit, amount)` with the fee amount as (denom, units) pairs. -/
structure Fee where
  gas_limit : Nat
  amount : List (String × Nat)

/-- The result of `wallet.create_and_sign_tx(msgs=..., fee=...)`:
the signed transaction carries exactly the given messages and fee. -/
structure SignedTx where
  msgs : List MsgExecuteContract
  fee : Fee

/-- The wallet collaborator: only its account address is observable. -/
structure Wallet where
  acc_address : String

/-- `wallet.create_and_sign_tx(msgs=m, fee=f)` — packaging performed by
the (external) wallet collaborator. -/
def Wallet.create_and_sign_tx (_w : Wallet) (msgs : List MsgExecuteContract)
    (fee : Fee) : SignedTx :=
  ⟨msgs, fee⟩

/-- The chain client's `tx.broadcast`: broadcast result, or a raised error. -/
def Broadcaster : Type := SignedTx → Except PyErr PyVal

/-- `Fee(5000000, Coins(uxprt=6250000))` — the constant fee attached by
every execute helper. -/
def dexterFee : Fee := ⟨5000000, [("uxprt", 6250000)]⟩

/-- Common tail of every execute helper: build the message (possibly
raising), wrap it in a single `MsgExecuteContract`, sign with the
constant fee, broadcast, and return Python `None` (there is no `return`
statement in the source, so the broadcast result bound to `res` is
discarded).  Broadcast errors propagate. -/
def runExecute (bc : Broadcaster) (wallet : Wallet) (contract : String)
    (msgE : Except PyErr PyVal) : Except PyErr PyVal × List SignedTx :=
  match msgE with
  | .error e => (.error e, [])
  | .ok m =>
      let tx := wallet.create_and_sign_tx
        [⟨wallet.acc_address, contract, m⟩] dexterFee
      match bc tx with
      | .error e => (.error e, [tx])
      | .ok _res => (.ok PyVal.none, [tx])

/-- `{"update_config": {...}}` — all three inner keys are quoted string
literals in the source. -/
def execute_vault_UpdateConfig (bc : Broadcaster) (wallet : Wallet)
    (vault_addr : String) (lp_token_code_id fee_collector generator_address : PyVal) :
    Except PyErr PyVal × List SignedTx :=
  runExecute bc wallet vault_addr (.ok (.dict [(.str "update_config", .dict
    [(.str "lp_token_code_id", lp_token_code_id),
     (.str "fee_collector", fee_collector),
     (.str "generator_address", generator_address)])]))

/-- `{"update_pool_config": {...}}` — quoted inner keys. -/
def execute_vault_UpdatePoolConfig (bc : Broadcaster) (wallet : Wallet)
    (vault_addr : String) (pool_type is_disabled new_fee_info : PyVal) :
    Except PyErr PyVal × List SignedTx :=
  runExecute bc wallet vault_addr (.ok (.dict [(.str "update_pool_config", .dict
    [(.str "pool_type", pool_type),
     (.str "is_disabled", is_disabled),
     (.str "new_fee_info", new_fee_info)])]))

/-- `{"add_to_registery": {"new_pool_config": ...}}` — quoted inner key. -/
def execute_vault_AddToRegistery (bc : Broadcaster) (wallet : Wallet)
    (vault_addr : String) (new_pool_config : PyVal) :
    Except PyErr PyVal × List SignedTx :=
  runExecute bc wallet vault_addr (.ok (.dict [(.str "add_to_registery", .dict
    [(.str "new_pool_config", new_pool_config)])]))

/-- `{"create_pool_instance": {pool_type: ..., asset_infos: ..., ...}}` —
the five parameter *values* are used as the inner dict keys. -/
def execute_vault_CreatePoolInstance (bc : Broadcaster) (wallet : Wallet)
    (vault_addr : String)
    (pool_type asset_infos lp_token_name lp_token_symbol init_params : PyVal) :
    Except PyErr PyVal × List SignedTx :=
  runExecute bc wallet vault_addr <| do
    let inner ← mkDict [(pool_type, pool_type), (asset_infos, asset_infos),
      (lp_token_name, lp_token_name), (lp_token_symbol, lp_token_symbol),
      (init_params, init_params)]
    pure (.dict [(.str "create_pool_instance", inner)])

/-- `{"join_pool": {pool_id: ..., recipient: ..., assets: ..., lp_to_mint: ...,
init_params: ...}}` — parameter values used as inner dict keys. -/
def execute_vault_JoinPool (bc : Broadcaster) (wallet : Wallet)
    (vault_addr : String)
    (pool_id recipient assets lp_to_mint init_params : PyVal) :
    Except PyErr PyVal × List SignedTx :=
  runExecute bc wallet vault_addr <| do
    let inner ← mkDict [(pool_id, pool_id), (recipient, recipient),
      (assets, assets), (lp_to_mint, lp_to_mint), (init_params, init_params)]
    pure (.dict [(.str "join_pool", inner)])

/-- `{"swap": {swap_request: ..., recipient: ...}}` — parameter values
used as inner dict keys. -/
def execute_vault_Swap (bc : Broadcaster) (wallet : Wallet)
    (vault_addr : String) (swap_request recipient : PyVal) :
    Except PyErr PyVal × List SignedTx :=
  runExecute bc wallet vault_addr <| do
    let inner ← mkDict [(swap_request, swap_request), (recipient, recipient)]
    pure (.dict [(.str "swap", inner)])

/-- `{"propose_new_owner": {owner: ..., expires_in: ...}}` — parameter
values used as inner dict keys. -/
def execute_vault_ProposeNewOwner (bc : Broadcaster) (wallet : Wallet)
    (vault_addr : String) (owner expires_in : PyVal) :
    Except PyErr PyVal × List SignedTx :=
  runExecute bc wallet vault_addr <| do
    let inner ← mkDict [(owner, owner), (expires_in, expires_in)]
    pure (.dict [(.str "propose_new_owner", inner)])

/-- `{"drop_ownership_proposal": {}}`. -/
def execute_vault_DropOwnershipProposal (bc : Broadcaster) (wallet : Wallet)
    (vault_addr : String) : Except PyErr PyVal × List SignedTx :=
  runExecute bc wallet vault_addr
    (.ok (.dict [(.str "drop_ownership_proposal", .dict [])]))

/-- `{"claim_ownership": {}}`. -/
def execute_vault_ClaimOwnership (bc : Broadcaster) (wallet : Wallet)
    (vault_addr : String) : Except PyErr PyVal × List SignedTx :=
  runExecute bc wallet vault_addr
    (.ok (.dict [(.str "claim_ownership", .dict [])]))

/-! ## `json.dumps` and `base64.b64encode`

Embedding of `dict_to_b64(data) = base64.b64encode(bytes(json.dumps(data), "ascii")).decode()`
(module-level in `simulation_script.py`, class-level in the mixin).

`json.dumps` uses the CPython defaults: item separator `", "`,
key separator `": "`, `ensure_ascii=True` (characters outside printable
ASCII are `\uXXXX`-escaped; astral-plane surrogate pairs are outside the
modelled value space), and raises `TypeError` on a non-atom dict key.
`bytes(s, "ascii")` raises when a character is ≥ 128. -/

/-- The quote character `"`. -/
def dquote : Char := Char.ofNat 34

/-- The backslash character. -/
def bslash : Char := Char.ofNat 92

/-- The opening curly brace character. -/
def lbrace : Char := Char.ofNat 123

/-- The closing curly brace character. -/
def rbrace : Char := Char.ofNat 125

/-- Decimal digit character for `n < 10`. -/
def digitChar (n : Nat) : Char := Char.ofNat (48 + n)

/-- Lower-case hex digit character for `n < 16`. -/
def hexChar (n : Nat) : Char :=
  if n < 10 then Char.ofNat (48 + n) else Char.ofNat (87 + n)

/-- Decimal digits of `n` with explicit recursion fuel (any fuel above
`n` suffices, because `n / 10` shrinks strictly). -/
def natToDigitsAux : Nat → Nat → List Char
  | 0, _ => []
  | fuel + 1, n =>
      if n < 10 then [digitChar n]
      else natToDigitsAux fuel (n / 10) ++ [digitChar (n % 10)]

/-- Decimal digits of `n`, most significant first. -/
def natToDigits (n : Nat) : List Char := natToDigitsAux (n + 1) n

/-- Decimal rendering of a Python `int`. -/
def intChars (n : Int) : List Char :=
  if n < 0 then '-' :: natToDigits n.natAbs else natToDigits n.toNat

/-- `null` -/
def nullChars : List Char := ['n', 'u', 'l', 'l']

/-- `true` -/
def trueChars : List Char := ['t', 'r', 'u', 'e']

/-- `false` -/
def falseChars : List Char := ['f', 'a', 'l', 's', 'e']

/-- JSON escaping of one character, as `json.dumps` with `ensure_ascii`
does for characters in the basic multilingual plane. -/
def escapeChar (c : Char) : List Char :=
  if c = dquote then [bslash, dquote]
  else if c = bslash then [bslash, bslash]
  else if c = Char.ofNat 10 then [bslash, 'n']
  else if c = Char.ofNat 9 then [bslash, 't']
  else if c = Char.ofNat 13 then [bslash, 'r']
  else if c = Char.ofNat 8 then [bslash, 'b']
  else if c = Char.ofNat 12 then [bslash, 'f']
  else if c.toNat < 32 || 127 ≤ c.toNat then
    [bslash, 'u', hexChar (c.toNat / 4096 % 16), hexChar (c.toNat / 256 % 16),
     hexChar (c.toNat / 16 % 16), hexChar (c.toNat % 16)]
  else [c]

/-- JSON escaping of a string body. -/
def escChars (cs : List Char) : List Char := (cs.map escapeChar).flatten

/-- Rendering of a dict key: strings are escaped and quoted; the other
atoms are rendered as their JSON text inside quotes (CPython coerces
such keys to strings); non-atom keys raise `TypeError`. -/
def dumpsKey : PyVal → Except PyErr (List Char)
  | .str s => .ok (dquote :: escChars s.data ++ [dquote])
  | .none => .ok (dquote :: nullChars ++ [dquote])
  | .bool true => .ok (dquote :: trueChars ++ [dquote])
  | .bool false => .ok (dquote :: falseChars ++ [dquote])
  | .int n => .ok (dquote :: intChars n ++ [dquote])
  | _ => .error (.typeError "keys must be str, int, float, bool or None")

mutual

/-- `json.dumps` with CPython default separators, producing the
character sequence of the serialization (or `TypeError` on a non-atom
dict key). -/
def json_dumps : PyVal → Except PyErr (List Char)
  | .none => .ok nullChars
  | .bool true => .ok trueChars
  | .bool false => .ok falseChars
  | .int n => .ok (intChars n)
  | .str s => .ok (dquote :: escChars s.data ++ [dquote])
  | .list xs => (dumpsElems xs).map (fun cs => '[' :: cs)
  | .dict ms => (dumpsMembers ms).map (fun cs => lbrace :: cs)

/-- Elements of a JSON array after the opening bracket. -/
def dumpsElems : List PyVal → Except PyErr (List Char)
  | [] => .ok [']']
  | x :: xs => do
      let cx ← json_dumps x
      let ct ← dumpsElemsTail xs
      .ok (cx ++ ct)

/-- Elements of a JSON array after the first element: `", "`-separated. -/
def dumpsElemsTail : List PyVal → Except PyErr (List Char)
  | [] => .ok [']']
  | x :: xs => do
      let cx ← json_dumps x
      let ct ← dumpsElemsTail xs
      .ok (',' :: ' ' :: cx ++ ct)

/-- One `"key": value` member. -/
def dumpsMember : PyVal × PyVal → Except PyErr (List Char)
  | (k, v) => do
      let ck ← dumpsKey k
      let cv ← json_dumps v
      .ok (ck ++ ':' :: ' ' :: cv)

/-- Members of a JSON object after the opening brace. -/
def dumpsMembers : List (PyVal × PyVal) → Except PyErr (List Char)
  | [] => .ok [rbrace]
  | m :: ms => do
      let cm ← dumpsMember m
      let ct ← dumpsMembersTail ms
      .ok (cm ++ ct)

/-- Members of a JSON object after the first member: `", "`-separated. -/
def dumpsMembersTail : List (PyVal × PyVal) → Except PyErr (List Char)
  | [] => .ok [rbrace]
  | m :: ms => do
      let cm ← dumpsMember m
      let ct ← dumpsMembersTail ms
      .ok (',' :: ' ' :: cm ++ ct)

end

/-- `bytes(s, "ascii")`: the code points, failing on a non-ASCII character. -/
def ascii_bytes (cs : List Char) : Except PyErr (List Nat) :=
  if cs.all (fun c => c.toNat < 128) then .ok (cs.map Char.toNat)
  else .error (.typeError "ascii codec cannot encode character")

/-- The standard base64 alphabet. -/
def b64Alphabet : List Char :=
  "ABCDEFGHIJKLMNOPQRSTUVWXYZabcdefghijklmnopqrstuvwxyz0123456789+/".data

/-- Character of a sextet (`n < 64`). -/
def b64Char (n : Nat) : Char := b64Alphabet.getD n '?'

/-- Sextet of an alphabet character. -/
def b64Val (c : Char) : Option Nat := b64Alphabet.findIdx? (fun d => d == c)

/-- Standard base64 encoding of a byte sequence (`base64.b64encode`),
with `=` padding. -/
def b64encode : List Nat → List Char
  | a :: b :: c :: rest =>
      b64Char (a / 4) :: b64Char (a % 4 * 16 + b / 16) ::
      b64Char (b % 16 * 4 + c / 64) :: b64Char (c % 64) :: b64encode rest
  | [a, b] => [b64Char (a / 4), b64Char (a % 4 * 16 + b / 16), b64Char (b % 16 * 4), '=']
  | [a] => [b64Char (a / 4), b64Char (a % 4 * 16), '=', '=']
  | [] => []

/-- Standard base64 decoding (`base64.b64decode`): quartets of alphabet
characters, with `=` padding only at the end. -/
def b64decode : List Char → Option (List Nat)
  | [] => some []
  | c1 :: c2 :: c3 :: c4 :: rest =>
      if c4 = '=' then
        if rest ≠ [] then Option.none
        else if c3 = '=' then do
          let s1 ← b64Val c1
          let s2 ← b64Val c2
          some [s1 * 4 + s2 / 16]
        else do
          let s1 ← b64Val c1
          let s2 ← b64Val c2
          let s3 ← b64Val c3
          some [s1 * 4 + s2 / 16, s2 % 16 * 16 + s3 / 4]
      else do
        let s1 ← b64Val c1
        let s2 ← b64Val c2
        let s3 ← b64Val c3
        let s4 ← b64Val c4
        let tail ← b64decode rest
        some ((s1 * 4 + s2 / 16) :: (s2 % 16 * 16 + s3 / 4) :: (s3 % 4 * 64 + s4) :: tail)
  | _ => Option.none

/-- `dict_to_b64(data) = base64.b64encode(bytes(json.dumps(data), "ascii")).decode()`. -/
def dict_to_b64 (data : PyVal) : Except PyErr String := do
  let cs ← json_dumps data
  let bs ← ascii_bytes cs
  .ok (String.mk (b64encode bs))

/-! ## A canonical JSON parser

`json.loads` restricted to the canonical output of `json_dumps`:
`null`/`true`/`false`, integers, escape-free strings, arrays and objects
with the exact `", "` / `": "` separators.  The `fuel` argument bounds
the recursion depth; `json_loads` supplies a fuel that provably
suffices for any serializer output. -/

/-- Decimal digit character test. -/
def isDigitChar (c : Char) : Bool := 48 ≤ c.toNat && c.toNat ≤ 57

/-- Value of a digit character. -/
def digitVal (c : Char) : Nat := c.toNat - 48

/-- Value of a digit string, most significant first. -/
def digitsVal (ds : List Char) : Nat := ds.foldl (fun a c => 10 * a + digitVal c) 0

/-- Parse a nonempty run of digits. -/
def parseNat (s : List Char) : Option (Nat × List Char) :=
  let ds := s.takeWhile isDigitChar
  if ds.isEmpty then Option.none else some (digitsVal ds, s.dropWhile isDigitChar)

/-- Parse a string body up to the closing quote (escape sequences do not
occur in the safe subset and are rejected). -/
def parseStrBody : List Char → Option (List Char × List Char)
  | [] => Option.none
  | c :: r =>
      if c = dquote then some ([], r)
      else if c = bslash then Option.none
      else do
        let (cs, r₁) ← parseStrBody r
        some (c :: cs, r₁)

mutual

/-- Parse one JSON value. -/
def parseValue : Nat → List Char → Option (PyVal × List Char)
  | 0, _ => Option.none
  | _ + 1, [] => Option.none
  | fuel + 1, c :: r =>
      if isDigitChar c then
        (parseNat (c :: r)).map (fun p => (PyVal.int (p.1 : Int), p.2))
      else if c = '-' then
        (parseNat r).map (fun p => (PyVal.int (-(p.1 : Int)), p.2))
      else if c = 'n' then
        match r with
        | 'u' :: 'l' :: 'l' :: r₁ => some (.none, r₁)
        | _ => Option.none
      else if c = 't' then
        match r with
        | 'r' :: 'u' :: 'e' :: r₁ => some (.bool true, r₁)
        | _ => Option.none
      else if c = 'f' then
        match r with
        | 'a' :: 'l' :: 's' :: 'e' :: r₁ => some (.bool false, r₁)
        | _ => Option.none
      else if c = dquote then
        (parseStrBody r).map (fun p => (PyVal.str (String.mk p.1), p.2))
      else if c = '[' then
        (parseElems fuel r).map (fun p => (PyVal.list p.1, p.2))
      else if c = lbrace then
        (parseMembers fuel r).map (fun p => (PyVal.dict p.1, p.2))
      else Option.none

/-- Parse the elements of an array after the opening bracket. -/
def parseElems : Nat → List Char → Option (List PyVal × List Char)
  | 0, _ => Option.none
  | _ + 1, [] => Option.none
  | fuel + 1, c :: r =>
      if c = ']' then some ([], r)
      else do
        let (v, r₁) ← parseValue fuel (c :: r)
        let (vs, r₂) ← parseElemsTail fuel r₁
        some (v :: vs, r₂)

/-- Parse `", "`-separated further elements, or the closing bracket. -/
def parseElemsTail : Nat → List Char → Option (List PyVal × List Char)
  | 0, _ => Option.none
  | _ + 1, [] => Option.none
  | fuel + 1, c :: r =>
      if c = ']' then some ([], r)
      else
        match c, r with
        | ',', ' ' :: r₁ => do
            let (v, r₂) ← parseValue fuel r₁
            let (vs, r₃) ← parseElemsTail fuel r₂
            some (v :: vs, r₃)
        | _, _ => Option.none

/-- Parse one `"key": value` member. -/
def parseMember : Nat → List Char → Option ((PyVal × PyVal) × List Char)
  | 0, _ => Option.none
  | fuel + 1, s =>
      match s with
      | c :: r =>
          if c = dquote then do
            let (k, r₁) ← parseStrBody r
            match r₁ with
            | ':' :: ' ' :: r₂ => do
                let (v, r₃) ← parseValue fuel r₂
                some ((PyVal.str (String.mk k), v), r₃)
            | _ => Option.none
          else Option.none
      | [] => Option.none

/-- Parse the members of an object after the opening brace. -/
def parseMembers : Nat → List Char → Option (List (PyVal × PyVal) × List Char)
  | 0, _ => Option.none
  | _ + 1, [] => Option.none
  | fuel + 1, c :: r =>
      if c = rbrace then some ([], r)
      else do
        let (m, r₁) ← parseMember fuel (c :: r)
        let (ms, r₂) ← parseMembersTail fuel r₁
        some (m :: ms, r₂)

/-- Parse `", "`-separated further members, or the closing brace. -/
def parseMembersTail : Nat → List Char → Option (List (PyVal × PyVal) × List Char)
  | 0, _ => Option.none
  | fuel + 1, s =>
      match s with
      | c :: r =>
          if c = rbrace then some ([], r)
          else
            match c, r with
            | ',', ' ' :: r₁ => do
                let (m, r₂) ← parseMember fuel r₁
                let (ms, r₃) ← parseMembersTail fuel r₂
                some (m :: ms, r₃)
            | _, _ => Option.none
      | [] => Option.none

end

/-- `json.loads` on the canonical subset: parse one value consuming the
whole input.  The fuel `2 * length + 2` provably suffices for every
output of `json_dumps`. -/
def json_loads (s : String) : Option PyVal :=
  match parseValue (2 * s.data.length + 2) s.data with
  | some (v, []) => some v
  | _ => Option.none

/-- Base64-decode, then decode the bytes as characters and JSON-parse:
the decoding pipeline a contract applies to the `msg` payload. -/
def b64_json_decode (s : String) : Option PyVal :=
  match b64decode s.data with
  | some bs => json_loads (String.mk (bs.map Char.ofNat))
  | Option.none => Option.none

/-! ## Safe values

The subset of values for which the canonical parser provably inverts
the serializer: dict keys are strings, and all string characters are
printable ASCII needing no escape.  The exit-pool arguments used by the
scripts (ints, addresses, asset descriptors, `None`) all satisfy it. -/

/-- Printable ASCII, no escape needed. -/
def safeChar (c : Char) : Bool :=
  32 ≤ c.toNat && c.toNat < 127 && !(c = dquote) && !(c = bslash)

mutual

/-- Safe values: atoms, safe strings, and containers of safe values
whose dict keys are safe strings. -/
def SafeV : PyVal → Bool
  | .none => true
  | .int _ => true
  | .bool _ => true
  | .str s => s.data.all safeChar
  | .list xs => SafeL xs
  | .dict ms => SafeM ms

/-- All elements safe. -/
def SafeL : List PyVal → Bool
  | [] => true
  | x :: xs => SafeV x && SafeL xs

/-- One safe member: a safe-string key and a safe value. -/
def SafeMem : PyVal × PyVal → Bool
  | (k, v) =>
      (match k with
       | PyVal.str s => s.data.all safeChar
       | _ => false) && SafeV v

/-- All members safe. -/
def SafeM : List (PyVal × PyVal) → Bool
  | [] => true
  | m :: ms => SafeMem m && SafeM ms

end

/-! ## The exit-pool execute operation

`execute_vault_exit_pool` builds the inner `{"exit_pool": {...}}`
message (quoted string keys in the source), base64-JSON-encodes it with
`dict_to_b64`, wraps it in a CW20 `{"send": {...}}` message, and
addresses the envelope at the LP-token contract, not the vault.

In `simulation_script.py` `dict_to_b64` is a module-level function and
the call resolves.  In `mixin_dexter_helper.py` the same body refers to
`dict_to_b64` as a bare name, but there the name is bound only as a
class attribute of `dexter_helpers_mixin`; Python name resolution for a
function body consults the local scope, enclosing function scopes, the
module globals and the builtins — never the enclosing class body — so
the reference raises `NameError` before any message is signed or
broadcast.  `mixin_execute_vault_exit_pool` models that lookup against
the names actually in scope in `mixin_dexter_helper.py`. -/

/-- The inner `{"exit_pool": {"pool_id": ..., "recipient": ...,
"assets": ..., "burn_amount": ...}}` message (quoted keys in the source). -/
def exit_pool_inner_msg (pool_id recipient assets burn_amount : PyVal) : PyVal :=
  .dict [(.str "exit_pool", .dict
    [(.str "pool_id", pool_id), (.str "recipient", recipient),
     (.str "assets", assets), (.str "burn_amount", burn_amount)])]

/-- The module-level `execute_vault_exit_pool` of `simulation_script.py`:
CW20 `send` with the base64 payload, addressed at `lp_token_addr`.
`dict_to_b64` may raise (`TypeError` on unserializable input), which
propagates — there is no `try`. -/
def execute_vault_exit_pool (bc : Broadcaster) (wallet : Wallet)
    (vault_addr lp_token_addr : String)
    (amount pool_id recipient assets burn_amount : PyVal) :
    Except PyErr PyVal × List SignedTx :=
  runExecute bc wallet lp_token_addr <| do
    let payload ← dict_to_b64 (exit_pool_inner_msg pool_id recipient assets burn_amount)
    pure (.dict [(.str "send", .dict
      [(.str "contract_addr", .str vault_addr), (.str "amount", amount),
       (.str "msg", .str payload)])])

/-- The module-level names defined in `mixin_dexter_helper.py` when the
method body executes: the imported names only.  `dict_to_b64` is *not*
among them — it is bound inside the class body. -/
def mixinModuleGlobalNames : List String :=
  ["imp", "LCDClient", "MnemonicKey", "MsgExecuteContract", "Fee",
   "Coins", "Coin", "base64", "json", "dexter_helpers_mixin"]

/-- Names in the local scope of `execute_vault_exit_pool`’s body:
its parameters and its assigned locals. -/
def exitPoolLocalNames : List String :=
  ["self", "wallet", "vault_addr", "lp_token_addr", "amount", "pool_id",
   "recipient", "assets", "burn_amount", "exit_msg", "cw20_send",
   "convertMsgPrep", "tx", "res"]

/-- A representative set of Python builtins (none of which is
`dict_to_b64`). -/
def pyBuiltinNames : List String :=
  ["print", "len", "dict", "list", "str", "int", "bool", "bytes", "range",
   "type", "isinstance", "Exception", "BaseException", "abs", "min", "max"]

/-- Python name resolution for a name used in a method body:
locals, then module globals, then builtins.  The enclosing class body
is not part of the lookup chain. -/
def nameResolves (locals : List String) (n : String) : Bool :=
  locals.contains n || mixinModuleGlobalNames.contains n || pyBuiltinNames.contains n

/-- `execute_vault_exit_pool` as defined inside `dexter_helpers_mixin`:
the body is identical to the module-level version, but the bare
reference to `dict_to_b64` must first resolve; when it does not, the
evaluation of `cw20_send`’s dict literal raises `NameError` and nothing
is signed or broadcast. -/
def mixin_execute_vault_exit_pool (bc : Broadcaster) (wallet : Wallet)
    (vault_addr lp_token_addr : String)
    (amount pool_id recipient assets burn_amount : PyVal) :
    Except PyErr PyVal × List SignedTx :=
  if nameResolves exitPoolLocalNames "dict_to_b64" then
    execute_vault_exit_pool bc wallet vault_addr lp_token_addr
      amount pool_id recipient assets burn_amount
  else
    (.error (.nameError "name dict_to_b64 is not defined"), [])

/-! ## Configuration table

`POOLS` from `testing_scripts/config.py`: a literal mapping from
symbolic pool names to descriptors.  Python `POOLS[name]` raises
`KeyError` for a missing key; the embedding is an association-list
lookup whose `none` is that raised `KeyError` (no default value is
produced). -/

/-- One pool descriptor from `config.py`. -/
structure PoolDescriptor where
  id : Nat
  type : String
  pool_addr : String
  lp_token_addr : String
  assets : List PyVal

/-- A `{"token": {"contract_addr": addr}}` asset reference. -/
def tokenAsset (addr : String) : PyVal :=
  .dict [(.str "token", .dict [(.str "contract_addr", .str addr)])]

/-- A `{"native_token": {"denom": denom}}` asset reference. -/
def nativeAsset (denom : String) : PyVal :=
  .dict [(.str "native_token", .dict [(.str "denom", .str denom)])]

/-- The `POOLS` table of `config.py`, verbatim. -/
def POOLS : List (String × PoolDescriptor) :=
  [("pool1", ⟨15, "xyk",
      "persistence1ut5qjunqrj6pnmg9vjlm8eufulquzdgqfw4xtg02kez0fdmzn9sqv804rp",
      "persistence1xk0s8xgktn9x5vwcgtjdxqzadg88fgn33p8u9cnpdxwemvxscvasejtgv7",
      [tokenAsset "persistence1u2zdjcczjrenwmf57fmrpensk4the84azdm05m3unm387rm8asdsh0yf27",
       nativeAsset "uxprt"]⟩),
   ("pool2", ⟨19, "xyk",
      "persistence1xvcthy3yrjaeg4y29c5zd2ckefgx99h2ge5ppxtwslnvyqwar7aq2lzgpz",
      "persistence15ul08t80lm6kp6fs424e3c9gg6eys7wcvkyl6lud45ulfl0fxrnsjdek2u",
      [tokenAsset "persistence1u2zdjcczjrenwmf57fmrpensk4the84azdm05m3unm387rm8asdsh0yf27",
       tokenAsset "persistence1rtdulljz3dntzpu085c7mzre9dg4trgdddu4tqk7uuuvu6xrfu8s8wcs45"]⟩),
   ("pool3", ⟨20, "stableswap",
      "persistence1k528kg8h3q56j5yazshv39fafmhjzl4540u7w36g6q2amgyrpwpsvexl2d",
      "persistence1jdsm42szlkrsnht95w4xesk5yluud2rge9vr4vuv84sxd9w32uwsvv0lvh",
      [tokenAsset "persistence1u2zdjcczjrenwmf57fmrpensk4the84azdm05m3unm387rm8asdsh0yf27",
       tokenAsset "persistence1rtdulljz3dntzpu085c7mzre9dg4trgdddu4tqk7uuuvu6xrfu8s8wcs45"]⟩),
   ("pool4", ⟨4, "stableswap",
      "persistence1acrmqqyqq9gwcy2upegzncahqwnzjzy89pssyt0s3ghwsrrqy94srfsw6r",
      "persistence1kj45m8j2pqrqlw67tqde8lduzla7me38fps8tzzjl2emgp90f0gqjjf5sk",
      [tokenAsset "persistence1vguuxez2h5ekltfj9gjd62fs5k4rl2zy5hfrncasykzw08rezpfst7tmng",
       nativeAsset "uxprt"]⟩),
   ("pool5", ⟨5, "stable5swap",
      "persistence1a7pjjyvng22a8msatp4zj6ut9tmsd9qvp26gaj7tnrjrqtx7yafqm7ezny",
      "persistence17jllkv6clrkrwsuyxpya505rnhzwenkr4njw3um5eyqjuqm4twzqlt82eh",
      [tokenAsset "persistence1rl8su3hadqqq2v86lscpuklsh2mh84cxqvjdew4jt9yd07dzekyq85jyzr",
       tokenAsset "persistence1vguuxez2h5ekltfj9gjd62fs5k4rl2zy5hfrncasykzw08rezpfst7tmng"]⟩),
   ("pool6", ⟨6, "stable5swap",
      "persistence1aexzn458dzh0lnuqdtzjtacq6tacnluz9ky643xdvw67en2yh97sjq6txg",
      "persistence18yqlanxjqxx5lr8r43hsvjf0wyrlec3r8rpxgm2svrh52mzmlh4scappxa",
      [tokenAsset "persistence1rl8su3hadqqq2v86lscpuklsh2mh84cxqvjdew4jt9yd07dzekyq85jyzr",
       tokenAsset "persistence1vguuxez2h5ekltfj9gjd62fs5k4rl2zy5hfrncasykzw08rezpfst7tmng",
       tokenAsset "persistence1vhjnzk9ly03dugffvzfcwgry4dgc8x0sv0nqqtfxj3ajn7rn5ghqtpaner",
       nativeAsset "uxprt"]⟩),
   ("pool7", ⟨7, "weighted",
      "persistence1j5h5zftg5su7ytz74f7rryl4f6x3p78lh907fw39eqhax75r94jsgj4n54",
      "persistence1ejycngcuqyw2h8afhlzkq0cmjegpt96x583jh99anjzeut2rm4sqf0x4wk",
      [tokenAsset "persistence1rl8su3hadqqq2v86lscpuklsh2mh84cxqvjdew4jt9yd07dzekyq85jyzr",
       tokenAsset "persistence1vguuxez2h5ekltfj9gjd62fs5k4rl2zy5hfrncasykzw08rezpfst7tmng",
       tokenAsset "persistence1vhjnzk9ly03dugffvzfcwgry4dgc8x0sv0nqqtfxj3ajn7rn5ghqtpaner",
       nativeAsset "uxprt"]⟩)]

/-- `POOLS[name]`: `some` descriptor, or `none` for the raised `KeyError`. -/
def POOLS_getitem (name : String) : Option PoolDescriptor :=
  POOLS.lookup name

/-- The pool kinds the spec admits. -/
def poolKinds : List String := ["xyk", "stableswap", "stable5swap", "weighted"]

/-! ## Generic lemmas about the façade combinators -/

/-- Whether an `Except` computation succeeded. -/
def exceptIsOk {α : Type} : Except PyErr α → Bool
  | .ok _ => true
  | .error _ => false

/-- An `exceptIsOk` computation has an `ok` value. -/
theorem exceptIsOk_exists {α : Type} {e : Except PyErr α}
    (h : exceptIsOk e = true) : ∃ a, e = .ok a := by
  cases e with
  | ok a => exact ⟨a, rfl⟩
  | error _ => simp [exceptIsOk] at h

/-- A dict literal whose keys are all hashable evaluates successfully. -/
theorem mkDictAux_ok (E : List (PyVal × PyVal)) :
    ∀ acc, (∀ p ∈ E, p.1.hashable = true) → ∃ d, mkDictAux acc E = .ok d := by
  induction E with
  | nil => exact fun acc _ => ⟨acc, rfl⟩
  | cons p E ih =>
      intro acc h
      obtain ⟨k, v⟩ := p
      have hk : k.hashable = true := h (k, v) (List.mem_cons_self _ _)
      simp only [mkDictAux, hk, if_true]
      exact ih (dictInsert acc k v) (fun q hq => h q (List.mem_cons_of_mem _ hq))

/-- A dict literal whose keys are all hashable yields a `PyVal.dict`. -/
theorem mkDict_ok (E : List (PyVal × PyVal))
    (h : ∀ p ∈ E, p.1.hashable = true) : ∃ d, mkDict E = .ok (.dict d) := by
  obtain ⟨d, hd⟩ := mkDictAux_ok E [] h
  exact ⟨d, by simp [mkDict, hd, Except.map]⟩

/-- A payload built from a hashable-keyed dict literal evaluates successfully. -/
theorem do_mkDict_ok (E : List (PyVal × PyVal)) (k : PyVal → PyVal)
    (h : ∀ p ∈ E, p.1.hashable = true) :
    ∃ p, (do
      let inner ← mkDict E
      pure (k inner) : Except PyErr PyVal) = .ok p := by
  obtain ⟨d, hd⟩ := mkDict_ok E h
  exact ⟨k (.dict d), by rw [hd]; rfl⟩

/-- When the client raises on every call, a query returns the absence
marker, whatever the payload. -/
theorem runQuery_absent_of_client_error (client : Client) (e : PyErr)
    (hc : ∀ q, client q = .error e) (addr : String) (pe : Except PyErr PyVal) :
    (runQuery client addr pe).1 = Option.none := by
  cases pe with
  | error _ => rfl
  | ok p => simp only [runQuery, hc ⟨addr, p⟩]

/-- A query whose payload construction succeeds issues exactly one
request, and running it twice issues two. -/
def OneRequestTwice (r : Option PyVal × List QueryCall) : Prop :=
  r.2.length = 1 ∧ (r.2 ++ r.2).length = 2

/-- A query with a well-constructed payload logs exactly one client call. -/
theorem runQuery_one_request (client : Client) (addr : String)
    (pe : Except PyErr PyVal) (h : ∃ p, pe = .ok p) :
    OneRequestTwice (runQuery client addr pe) := by
  obtain ⟨p, rfl⟩ := h
  constructor
  · simp only [runQuery]
    cases client ⟨addr, p⟩ <;> rfl
  · simp only [runQuery]
    cases client ⟨addr, p⟩ <;> rfl

/-- The transaction an execute helper signs and broadcasts: exactly one
message, from the wallet's address, with the constant fee — recorded in
the trace whether or not the broadcast succeeds. -/
theorem runExecute_trace (bc : Broadcaster) (wallet : Wallet)
    (contract : String) (m : PyVal) :
    (runExecute bc wallet contract (.ok m)).2 =
      [⟨[⟨wallet.acc_address, contract, m⟩], dexterFee⟩] := by
  simp only [runExecute, Wallet.create_and_sign_tx]
  cases bc ⟨[⟨wallet.acc_address, contract, m⟩], dexterFee⟩ <;> rfl

/-- When the broadcast succeeds, an execute helper returns Python `None`
(its body has no `return` statement). -/
theorem runExecute_ok (bc : Broadcaster) (r : PyVal)
    (hbc : ∀ tx, bc tx = .ok r) (wallet : Wallet) (contract : String)
    (pe : Except PyErr PyVal) (h : ∃ m, pe = .ok m) :
    (runExecute bc wallet contract pe).1 = .ok PyVal.none := by
  obtain ⟨m, rfl⟩ := h
  simp only [runExecute, Wallet.create_and_sign_tx, hbc]

/-- When the broadcast raises, the error propagates unchanged. -/
theorem runExecute_err (bc : Broadcaster) (e : PyErr)
    (hbc : ∀ tx, bc tx = .error e) (wallet : Wallet) (contract : String)
    (pe : Except PyErr PyVal) (h : ∃ m, pe = .ok m) :
    (runExecute bc wallet contract pe).1 = .error e := by
  obtain ⟨m, rfl⟩ := h
  simp only [runExecute, Wallet.create_and_sign_tx, hbc]

/-- The well-formedness C5 asserts of one execute call's trace: exactly
one signed transaction, carrying exactly one contract-execution message,
sent by the wallet, addressed at `contract`, whose message has the
single top-level key `name`, with the constant fee. -/
def GoodTx (trace : List SignedTx) (sender contract name : String) : Prop :=
  ∃ inner : PyVal,
    trace = [⟨[⟨sender, contract, .dict [(.str name, inner)]⟩], dexterFee⟩]

/-- An execute helper whose message is a singleton dict literal with a
quoted key produces a well-formed single-message transaction. -/
theorem exec_ok_GoodTx (bc : Broadcaster) (wallet : Wallet)
    (contract name : String) (inner : PyVal) :
    GoodTx ((runExecute bc wallet contract
      (.ok (.dict [(.str name, inner)]))).2) wallet.acc_address contract name :=
  ⟨inner, runExecute_trace bc wallet contract _⟩

/-- An execute helper whose inner dict literal has hashable keys
produces a well-formed single-message transaction. -/
theorem exec_do_GoodTx (bc : Broadcaster) (wallet : Wallet)
    (contract name : String) (E : List (PyVal × PyVal))
    (h : ∀ p ∈ E, p.1.hashable = true) :
    GoodTx ((runExecute bc wallet contract (do
      let inner ← mkDict E
      pure (.dict [(.str name, inner)]))).2) wallet.acc_address contract name := by
  obtain ⟨d, hd⟩ := mkDict_ok E h
  refine ⟨.dict d, ?_⟩
  rw [hd]
  exact runExecute_trace bc wallet contract _

/-! ## Claim theorems -/

/-- A concrete client that raises on every query. -/
def clientDown : Client := fun _ => .error (.lcdError "connection refused")

/-- A concrete client that answers every query with `None`. -/
def clientOkNone : Client := fun _ => .ok PyVal.none

/-- C2: for every query operation, when the chain client raises on every
call, the operation returns the absence marker `None` — the error never
propagates and no partial data is returned (the result is `Option.none`,
never an exception, whatever the arguments). -/
theorem queries_absorb_client_errors (client : Client) (e : PyErr)
    (hc : ∀ q, client q = .error e) (addr : String)
    (pool_type pool_id pool_addr assets_in mint_amount slippage_tolerance
     assets_out burn_amount swap_type offer_asset ask_asset amount
     max_spread belief_price cp_offer cp_ask : PyVal) :
    (query_vault_config client addr).1 = Option.none ∧
    (query_vault_query_registery client addr pool_type).1 = Option.none ∧
    (query_vault_GetPoolById client addr pool_id).1 = Option.none ∧
    (query_vault_GetPoolByAddress client addr pool_addr).1 = Option.none ∧
    (query_pool_config client addr).1 = Option.none ∧
    (query_pool_fee_params client addr).1 = Option.none ∧
    (query_pool_pool_id client addr).1 = Option.none ∧
    (query_pool_on_join_pool client addr assets_in mint_amount slippage_tolerance).1 = Option.none ∧
    (query_pool_on_exit_pool client addr assets_out burn_amount).1 = Option.none ∧
    (query_pool_on_swap client addr swap_type offer_asset ask_asset amount max_spread belief_price).1 = Option.none ∧
    (query_cumulative_price client addr cp_offer cp_ask).1 = Option.none ∧
    (query_cumulative_prices client addr).1 = Option.none :=
  ⟨runQuery_absent_of_client_error client e hc addr _,
   runQuery_absent_of_client_error client e hc addr _,
   runQuery_absent_of_client_error client e hc addr _,
   runQuery_absent_of_client_error client e hc addr _,
   runQuery_absent_of_client_error client e hc addr _,
   runQuery_absent_of_client_error client e hc addr _,
   runQuery_absent_of_client_error client e hc addr _,
   runQuery_absent_of_client_error client e hc addr _,
   runQuery_absent_of_client_error client e hc addr _,
   runQuery_absent_of_client_error client e hc addr _,
   runQuery_absent_of_client_error client e hc addr _,
   runQuery_absent_of_client_error client e hc addr _⟩

/-- Witness for C2 at a concrete failing client and concrete arguments. -/
theorem queries_absorb_client_errors_witness :
    (query_vault_config clientDown "vault").1 = Option.none ∧
    (query_vault_query_registery clientDown "vault" (.str "xyk")).1 = Option.none ∧
    (query_vault_GetPoolById clientDown "vault" (.int 1)).1 = Option.none ∧
    (query_vault_GetPoolByAddress clientDown "vault" (.str "p")).1 = Option.none ∧
    (query_pool_config clientDown "vault").1 = Option.none ∧
    (query_pool_fee_params clientDown "vault").1 = Option.none ∧
    (query_pool_pool_id clientDown "vault").1 = Option.none ∧
    (query_pool_on_join_pool clientDown "vault" .none .none .none).1 = Option.none ∧
    (query_pool_on_exit_pool clientDown "vault" .none .none).1 = Option.none ∧
    (query_pool_on_swap clientDown "vault" (.str "give_in") (.str "a") (.str "b") (.int 10) .none .none).1 = Option.none ∧
    (query_cumulative_price clientDown "vault" (.str "a") (.str "b")).1 = Option.none ∧
    (query_cumulative_prices clientDown "vault").1 = Option.none :=
  queries_absorb_client_errors clientDown (.lcdError "connection refused")
    (fun _ => rfl) "vault" (.str "xyk") (.int 1) (.str "p") .none .none .none
    .none .none (.str "give_in") (.str "a") (.str "b") (.int 10) .none .none
    (.str "a") (.str "b")

/-- C1 (code bug): the parameter object sent by `query_vault_GetPoolById`
binds the *value* of `pool_id` as the key — querying pool id 1 sends
`{"get_pool_by_id": {1: 1}}`, whose parameter object does not contain
the named field `"pool_id"` at all, instead of
`{"get_pool_by_id": {"pool_id": 1}}` as the spec describes. -/
theorem get_pool_by_id_payload_uses_value_as_key :
    (query_vault_GetPoolById clientOkNone "vault" (.int 1)).2 =
      [⟨"vault", .dict [(.str "get_pool_by_id", .dict [(.int 1, .int 1)])]⟩] ∧
    (PyVal.dict [(.int 1, .int 1)]).hasKey (.str "pool_id") = false ∧
    (PyVal.dict [(.int 1, .int 1)]).hasKey (.int 1) = true :=
  ⟨rfl, rfl, rfl⟩

/-- C10: a query whose payload construction raises returns the absence
marker without any request reaching the chain client: for every
list-valued `assets_in` (the natural representation of an asset
sequence), `query_pool_on_join_pool` uses it as a dict key, the dict
literal raises `TypeError: unhashable type`, the bare `except` swallows
it, the caller receives `None`, and the request log is empty. -/
theorem on_join_pool_list_assets_never_sent (client : Client) (addr : String)
    (xs : List PyVal) (mint_amount slippage_tolerance : PyVal) :
    query_pool_on_join_pool client addr (.list xs) mint_amount slippage_tolerance
      = (Option.none, []) := rfl

/-- C8 counterexample: a single invocation does *not* always attempt the
underlying client call exactly once — with a list-valued `assets_in`
the payload construction raises first, and zero requests are issued. -/
theorem on_join_pool_zero_requests :
    (query_pool_on_join_pool clientOkNone "pool" (.list [.int 1]) .none .none).2.length = 0 :=
  rfl

/-- C8 (amended): every query operation is stateless and unmemoized —
whenever the payload construction succeeds (hashable arguments), each
invocation issues exactly one request to the chain client, with no
retry, and two invocations with identical arguments issue two
independent requests. -/
theorem queries_send_exactly_one_request (client : Client) (addr : String)
    (pool_type pool_id pool_addr assets_in mint_amount slippage_tolerance
     assets_out burn_amount swap_type offer_asset ask_asset amount
     max_spread belief_price cp_offer cp_ask : PyVal)
    (h1 : pool_type.hashable = true) (h2 : pool_id.hashable = true)
    (h3 : pool_addr.hashable = true) (h4 : assets_in.hashable = true)
    (h5 : mint_amount.hashable = true) (h6 : slippage_tolerance.hashable = true)
    (h7 : assets_out.hashable = true) (h8 : burn_amount.hashable = true)
    (h9 : swap_type.hashable = true) (h10 : offer_asset.hashable = true)
    (h11 : ask_asset.hashable = true) (h12 : amount.hashable = true)
    (h13 : max_spread.hashable = true) (h14 : belief_price.hashable = true)
    (h15 : cp_offer.hashable = true) (h16 : cp_ask.hashable = true) :
    OneRequestTwice (query_vault_config client addr) ∧
    OneRequestTwice (query_vault_query_registery client addr pool_type) ∧
    OneRequestTwice (query_vault_GetPoolById client addr pool_id) ∧
    OneRequestTwice (query_vault_GetPoolByAddress client addr pool_addr) ∧
    OneRequestTwice (query_pool_config client addr) ∧
    OneRequestTwice (query_pool_fee_params client addr) ∧
    OneRequestTwice (query_pool_pool_id client addr) ∧
    OneRequestTwice (query_pool_on_join_pool client addr assets_in mint_amount slippage_tolerance) ∧
    OneRequestTwice (query_pool_on_exit_pool client addr assets_out burn_amount) ∧
    OneRequestTwice (query_pool_on_swap client addr swap_type offer_asset ask_asset amount max_spread belief_price) ∧
    OneRequestTwice (query_cumulative_price client addr cp_offer cp_ask) ∧
    OneRequestTwice (query_cumulative_prices client addr) :=
  ⟨runQuery_one_request client addr _ ⟨_, rfl⟩,
   runQuery_one_request client addr _ (do_mkDict_ok _ _
     (by simp only [List.forall_mem_cons, List.forall_mem_ne]; simp [h1])),
   runQuery_one_request client addr _ (do_mkDict_ok _ _ (by simp [h2])),
   runQuery_one_request client addr _ (do_mkDict_ok _ _ (by simp [h3])),
   runQuery_one_request client addr _ ⟨_, rfl⟩,
   runQuery_one_request client addr _ ⟨_, rfl⟩,
   runQuery_one_request client addr _ ⟨_, rfl⟩,
   runQuery_one_request client addr _ (do_mkDict_ok _ _ (by simp [h4, h5, h6])),
   runQuery_one_request client addr _ (do_mkDict_ok _ _ (by simp [h7, h8])),
   runQuery_one_request client addr _ (do_mkDict_ok _ _
     (by simp [h9, h10, h11, h12, h13, h14])),
   runQuery_one_request client addr _ (do_mkDict_ok _ _ (by simp [h15, h16])),
   runQuery_one_request client addr _ ⟨_, rfl⟩⟩

/-- Witness for C8's amended theorem at concrete hashable arguments. -/
theorem queries_send_exactly_one_request_witness :
    OneRequestTwice (query_vault_config clientOkNone "v") ∧
    OneRequestTwice (query_vault_query_registery clientOkNone "v" (.str "xyk")) ∧
    OneRequestTwice (query_vault_GetPoolById clientOkNone "v" (.int 1)) ∧
    OneRequestTwice (query_vault_GetPoolByAddress clientOkNone "v" (.str "p")) ∧
    OneRequestTwice (query_pool_config clientOkNone "v") ∧
    OneRequestTwice (query_pool_fee_params clientOkNone "v") ∧
    OneRequestTwice (query_pool_pool_id clientOkNone "v") ∧
    OneRequestTwice (query_pool_on_join_pool clientOkNone "v" .none .none .none) ∧
    OneRequestTwice (query_pool_on_exit_pool clientOkNone "v" .none .none) ∧
    OneRequestTwice (query_pool_on_swap clientOkNone "v" (.str "give_in") (.str "a") (.str "b") (.int 10) .none .none) ∧
    OneRequestTwice (query_cumulative_price clientOkNone "v" (.str "a") (.str "b")) ∧
    OneRequestTwice (query_cumulative_prices clientOkNone "v") :=
  queries_send_exactly_one_request clientOkNone "v" (.str "xyk") (.int 1)
    (.str "p") .none .none .none .none .none (.str "give_in") (.str "a")
    (.str "b") (.int 10) .none .none (.str "a") (.str "b")
    rfl rfl rfl rfl rfl rfl rfl rfl rfl rfl rfl rfl rfl rfl rfl rfl

/-- C9: inside the mixin class, `execute_vault_exit_pool` fails with
`NameError` on every input: the bare name `dict_to_b64` is bound only as
a class attribute, which Python name resolution for a method body never
consults, so evaluation raises before anything is signed or broadcast
(empty broadcast trace). -/
theorem mixin_exit_pool_raises_nameerror (bc : Broadcaster) (wallet : Wallet)
    (vault_addr lp_token_addr : String)
    (amount pool_id recipient assets burn_amount : PyVal) :
    mixin_execute_vault_exit_pool bc wallet vault_addr lp_token_addr
      amount pool_id recipient assets burn_amount
      = (.error (.nameError "name dict_to_b64 is not defined"), []) := rfl

/-- A concrete broadcaster that accepts everything with a fixed result. -/
def bcOkResult : Broadcaster := fun _ => .ok (.str "code 0 txhash ABCD")

/-- A concrete broadcaster that raises on everything. -/
def bcDown : Broadcaster := fun _ => .error (.lcdError "mempool full")

/-- C4 counterexample: `execute_vault_UpdateConfig` does *not* return
the chain client's broadcast result — the broadcaster answers
`"code 0 txhash ABCD"`, yet the method returns Python `None` (its body
never returns `res`). -/
theorem update_config_discards_broadcast_result :
    (execute_vault_UpdateConfig bcOkResult ⟨"sender"⟩ "vault" .none .none .none).1
      = .ok PyVal.none ∧
    bcOkResult ⟨[], dexterFee⟩ = .ok (.str "code 0 txhash ABCD") ∧
    (execute_vault_UpdateConfig bcOkResult ⟨"sender"⟩ "vault" .none .none .none).1
      ≠ .ok (.str "code 0 txhash ABCD") :=
  ⟨rfl, rfl, fun h => PyVal.noConfusion (Except.ok.inj h)⟩

/-- The exit-pool payload evaluates when `dict_to_b64` succeeds. -/
theorem exit_payload_ok (vault_addr : String)
    (amount pool_id recipient assets burn_amount : PyVal)
    (hx : exceptIsOk (dict_to_b64
      (exit_pool_inner_msg pool_id recipient assets burn_amount)) = true) :
    ∃ m, (do
      let payload ← dict_to_b64 (exit_pool_inner_msg pool_id recipient assets burn_amount)
      pure (.dict [(.str "send", .dict
        [(.str "contract_addr", .str vault_addr), (.str "amount", amount),
         (.str "msg", .str payload)])]) : Except PyErr PyVal) = .ok m := by
  obtain ⟨s, hs⟩ := exceptIsOk_exists hx
  exact ⟨_, by rw [hs]; rfl⟩

/-- C4 (amended): every execute operation, when the broadcast succeeds,
returns Python `None` — the broadcast result is discarded, not returned. -/
theorem executes_return_none_discarding_result (bc : Broadcaster) (r : PyVal)
    (hbc : ∀ tx, bc tx = .ok r) (wallet : Wallet) (vault_addr lp_token_addr : String)
    (lp_token_code_id fee_collector generator_address
     up_pool_type is_disabled new_fee_info new_pool_config
     cp_pool_type cp_asset_infos cp_lp_name cp_lp_symbol cp_init
     jp_pool_id jp_recipient jp_assets jp_lp_to_mint jp_init
     swap_request sw_recipient owner expires_in
     amount pool_id recipient assets burn_amount : PyVal)
    (hc1 : cp_pool_type.hashable = true) (hc2 : cp_asset_infos.hashable = true)
    (hc3 : cp_lp_name.hashable = true) (hc4 : cp_lp_symbol.hashable = true)
    (hc5 : cp_init.hashable = true)
    (hj1 : jp_pool_id.hashable = true) (hj2 : jp_recipient.hashable = true)
    (hj3 : jp_assets.hashable = true) (hj4 : jp_lp_to_mint.hashable = true)
    (hj5 : jp_init.hashable = true)
    (hs1 : swap_request.hashable = true) (hs2 : sw_recipient.hashable = true)
    (ho1 : owner.hashable = true) (ho2 : expires_in.hashable = true)
    (hx : exceptIsOk (dict_to_b64
      (exit_pool_inner_msg pool_id recipient assets burn_amount)) = true) :
    (execute_vault_UpdateConfig bc wallet vault_addr lp_token_code_id fee_collector generator_address).1 = .ok PyVal.none ∧
    (execute_vault_UpdatePoolConfig bc wallet vault_addr up_pool_type is_disabled new_fee_info).1 = .ok PyVal.none ∧
    (execute_vault_AddToRegistery bc wallet vault_addr new_pool_config).1 = .ok PyVal.none ∧
    (execute_vault_CreatePoolInstance bc wallet vault_addr cp_pool_type cp_asset_infos cp_lp_name cp_lp_symbol cp_init).1 = .ok PyVal.none ∧
    (execute_vault_JoinPool bc wallet vault_addr jp_pool_id jp_recipient jp_assets jp_lp_to_mint jp_init).1 = .ok PyVal.none ∧
    (execute_vault_Swap bc wallet vault_addr swap_request sw_recipient).1 = .ok PyVal.none ∧
    (execute_vault_ProposeNewOwner bc wallet vault_addr owner expires_in).1 = .ok PyVal.none ∧
    (execute_vault_DropOwnershipProposal bc wallet vault_addr).1 = .ok PyVal.none ∧
    (execute_vault_ClaimOwnership bc wallet vault_addr).1 = .ok PyVal.none ∧
    (execute_vault_exit_pool bc wallet vault_addr lp_token_addr amount pool_id recipient assets burn_amount).1 = .ok PyVal.none :=
  ⟨runExecute_ok bc r hbc wallet _ _ ⟨_, rfl⟩,
   runExecute_ok bc r hbc wallet _ _ ⟨_, rfl⟩,
   runExecute_ok bc r hbc wallet _ _ ⟨_, rfl⟩,
   runExecute_ok bc r hbc wallet _ _ (do_mkDict_ok _ _ (by simp [hc1, hc2, hc3, hc4, hc5])),
   runExecute_ok bc r hbc wallet _ _ (do_mkDict_ok _ _ (by simp [hj1, hj2, hj3, hj4, hj5])),
   runExecute_ok bc r hbc wallet _ _ (do_mkDict_ok _ _ (by simp [hs1, hs2])),
   runExecute_ok bc r hbc wallet _ _ (do_mkDict_ok _ _ (by simp [ho1, ho2])),
   runExecute_ok bc r hbc wallet _ _ ⟨_, rfl⟩,
   runExecute_ok bc r hbc wallet _ _ ⟨_, rfl⟩,
   runExecute_ok bc r hbc wallet _ _
     (exit_payload_ok vault_addr amount pool_id recipient assets burn_amount hx)⟩

/-- Witness for C4's amended theorem at concrete arguments. -/
theorem executes_return_none_discarding_result_witness :
    (execute_vault_UpdateConfig bcOkResult ⟨"s"⟩ "vault" .none .none .none).1 = .ok PyVal.none ∧
    (execute_vault_UpdatePoolConfig bcOkResult ⟨"s"⟩ "vault" (.str "xyk") .none .none).1 = .ok PyVal.none ∧
    (execute_vault_AddToRegistery bcOkResult ⟨"s"⟩ "vault" .none).1 = .ok PyVal.none ∧
    (execute_vault_CreatePoolInstance bcOkResult ⟨"s"⟩ "vault" (.str "xyk") (.str "a") .none .none .none).1 = .ok PyVal.none ∧
    (execute_vault_JoinPool bcOkResult ⟨"s"⟩ "vault" (.int 1) .none .none .none .none).1 = .ok PyVal.none ∧
    (execute_vault_Swap bcOkResult ⟨"s"⟩ "vault" (.str "req") .none).1 = .ok PyVal.none ∧
    (execute_vault_ProposeNewOwner bcOkResult ⟨"s"⟩ "vault" (.str "o") .none).1 = .ok PyVal.none ∧
    (execute_vault_DropOwnershipProposal bcOkResult ⟨"s"⟩ "vault").1 = .ok PyVal.none ∧
    (execute_vault_ClaimOwnership bcOkResult ⟨"s"⟩ "vault").1 = .ok PyVal.none ∧
    (execute_vault_exit_pool bcOkResult ⟨"s"⟩ "vault" "lp" (.int 100) (.int 1) .none .none .none).1 = .ok PyVal.none :=
  executes_return_none_discarding_result bcOkResult (.str "code 0 txhash ABCD")
    (fun _ => rfl) ⟨"s"⟩ "vault" "lp" .none .none .none (.str "xyk") .none .none
    .none (.str "xyk") (.str "a") .none .none .none (.int 1) .none .none .none
    .none (.str "req") .none (.str "o") .none (.int 100) (.int 1) .none .none
    .none rfl rfl rfl rfl rfl rfl rfl rfl rfl rfl rfl rfl rfl rfl rfl

/-- The exit-pool helper's trace: a single well-formed `send` transaction
addressed at the LP-token contract. -/
theorem exec_exit_GoodTx (bc : Broadcaster) (wallet : Wallet)
    (vault_addr lp_token_addr : String)
    (amount pool_id recipient assets burn_amount : PyVal)
    (hx : exceptIsOk (dict_to_b64
      (exit_pool_inner_msg pool_id recipient assets burn_amount)) = true) :
    GoodTx ((execute_vault_exit_pool bc wallet vault_addr lp_token_addr
        amount pool_id recipient assets burn_amount).2)
      wallet.acc_address lp_token_addr "send" := by
  obtain ⟨s, hs⟩ := exceptIsOk_exists hx
  refine ⟨.dict [(.str "contract_addr", .str vault_addr), (.str "amount", amount),
    (.str "msg", .str s)], ?_⟩
  show (runExecute bc wallet lp_token_addr (do
    let payload ← dict_to_b64 (exit_pool_inner_msg pool_id recipient assets burn_amount)
    pure (.dict [(.str "send", .dict
      [(.str "contract_addr", .str vault_addr), (.str "amount", amount),
       (.str "msg", .str payload)])]))).2 = _
  rw [hs]
  exact runExecute_trace bc wallet lp_token_addr _

/-- C5: every execute operation constructs a message with exactly one
top-level key equal to its operation name, signs a transaction carrying
exactly one contract-execution message, and attaches the constant fee
(5,000,000 gas, 6,250,000 uxprt) regardless of arguments; the composite
exit-pool operation additionally has the single inner key `exit_pool`
and the single outer key `send` on its CW20 envelope. -/
theorem executes_single_key_single_msg_const_fee (bc : Broadcaster)
    (wallet : Wallet) (vault_addr lp_token_addr : String)
    (lp_token_code_id fee_collector generator_address
     up_pool_type is_disabled new_fee_info new_pool_config
     cp_pool_type cp_asset_infos cp_lp_name cp_lp_symbol cp_init
     jp_pool_id jp_recipient jp_assets jp_lp_to_mint jp_init
     swap_request sw_recipient owner expires_in
     amount pool_id recipient assets burn_amount : PyVal)
    (hc1 : cp_pool_type.hashable = true) (hc2 : cp_asset_infos.hashable = true)
    (hc3 : cp_lp_name.hashable = true) (hc4 : cp_lp_symbol.hashable = true)
    (hc5 : cp_init.hashable = true)
    (hj1 : jp_pool_id.hashable = true) (hj2 : jp_recipient.hashable = true)
    (hj3 : jp_assets.hashable = true) (hj4 : jp_lp_to_mint.hashable = true)
    (hj5 : jp_init.hashable = true)
    (hs1 : swap_request.hashable = true) (hs2 : sw_recipient.hashable = true)
    (ho1 : owner.hashable = true) (ho2 : expires_in.hashable = true)
    (hx : exceptIsOk (dict_to_b64
      (exit_pool_inner_msg pool_id recipient assets burn_amount)) = true) :
    GoodTx ((execute_vault_UpdateConfig bc wallet vault_addr lp_token_code_id fee_collector generator_address).2) wallet.acc_address vault_addr "update_config" ∧
    GoodTx ((execute_vault_UpdatePoolConfig bc wallet vault_addr up_pool_type is_disabled new_fee_info).2) wallet.acc_address vault_addr "update_pool_config" ∧
    GoodTx ((execute_vault_AddToRegistery bc wallet vault_addr new_pool_config).2) wallet.acc_address vault_addr "add_to_registery" ∧
    GoodTx ((execute_vault_CreatePoolInstance bc wallet vault_addr cp_pool_type cp_asset_infos cp_lp_name cp_lp_symbol cp_init).2) wallet.acc_address vault_addr "create_pool_instance" ∧
    GoodTx ((execute_vault_JoinPool bc wallet vault_addr jp_pool_id jp_recipient jp_assets jp_lp_to_mint jp_init).2) wallet.acc_address vault_addr "join_pool" ∧
    GoodTx ((execute_vault_Swap bc wallet vault_addr swap_request sw_recipient).2) wallet.acc_address vault_addr "swap" ∧
    GoodTx ((execute_vault_ProposeNewOwner bc wallet vault_addr owner expires_in).2) wallet.acc_address vault_addr "propose_new_owner" ∧
    GoodTx ((execute_vault_DropOwnershipProposal bc wallet vault_addr).2) wallet.acc_address vault_addr "drop_ownership_proposal" ∧
    GoodTx ((execute_vault_ClaimOwnership bc wallet vault_addr).2) wallet.acc_address vault_addr "claim_ownership" ∧
    GoodTx ((execute_vault_exit_pool bc wallet vault_addr lp_token_addr amount pool_id recipient assets burn_amount).2) wallet.acc_address lp_token_addr "send" ∧
    (exit_pool_inner_msg pool_id recipient assets burn_amount).keys = [.str "exit_pool"] :=
  ⟨exec_ok_GoodTx bc wallet vault_addr "update_config" _,
   exec_ok_GoodTx bc wallet vault_addr "update_pool_config" _,
   exec_ok_GoodTx bc wallet vault_addr "add_to_registery" _,
   exec_do_GoodTx bc wallet vault_addr "create_pool_instance" _
     (by simp [hc1, hc2, hc3, hc4, hc5]),
   exec_do_GoodTx bc wallet vault_addr "join_pool" _
     (by simp [hj1, hj2, hj3, hj4, hj5]),
   exec_do_GoodTx bc wallet vault_addr "swap" _ (by simp [hs1, hs2]),
   exec_do_GoodTx bc wallet vault_addr "propose_new_owner" _ (by simp [ho1, ho2]),
   exec_ok_GoodTx bc wallet vault_addr "drop_ownership_proposal" _,
   exec_ok_GoodTx bc wallet vault_addr "claim_ownership" _,
   exec_exit_GoodTx bc wallet vault_addr lp_token_addr amount pool_id recipient
     assets burn_amount hx,
   rfl⟩

/-- Witness for C5 at concrete arguments. -/
theorem executes_single_key_single_msg_const_fee_witness :
    GoodTx ((execute_vault_UpdateConfig bcOkResult ⟨"s"⟩ "vault" .none .none .none).2) "s" "vault" "update_config" ∧
    GoodTx ((execute_vault_UpdatePoolConfig bcOkResult ⟨"s"⟩ "vault" (.str "xyk") .none .none).2) "s" "vault" "update_pool_config" ∧
    GoodTx ((execute_vault_AddToRegistery bcOkResult ⟨"s"⟩ "vault" .none).2) "s" "vault" "add_to_registery" ∧
    GoodTx ((execute_vault_CreatePoolInstance bcOkResult ⟨"s"⟩ "vault" (.str "xyk") (.str "a") .none .none .none).2) "s" "vault" "create_pool_instance" ∧
    GoodTx ((execute_vault_JoinPool bcOkResult ⟨"s"⟩ "vault" (.int 1) .none .none .none .none).2) "s" "vault" "join_pool" ∧
    GoodTx ((execute_vault_Swap bcOkResult ⟨"s"⟩ "vault" (.str "req") .none).2) "s" "vault" "swap" ∧
    GoodTx ((execute_vault_ProposeNewOwner bcOkResult ⟨"s"⟩ "vault" (.str "o") .none).2) "s" "vault" "propose_new_owner" ∧
    GoodTx ((execute_vault_DropOwnershipProposal bcOkResult ⟨"s"⟩ "vault").2) "s" "vault" "drop_ownership_proposal" ∧
    GoodTx ((execute_vault_ClaimOwnership bcOkResult ⟨"s"⟩ "vault").2) "s" "vault" "claim_ownership" ∧
    GoodTx ((execute_vault_exit_pool bcOkResult ⟨"s"⟩ "vault" "lp" (.int 100) (.int 1) .none .none .none).2) "s" "lp" "send" ∧
    (exit_pool_inner_msg (.int 1) .none .none .none).keys = [.str "exit_pool"] :=
  executes_single_key_single_msg_const_fee bcOkResult ⟨"s"⟩ "vault" "lp"
    .none .none .none (.str "xyk") .none .none .none (.str "xyk") (.str "a")
    .none .none .none (.int 1) .none .none .none .none (.str "req") .none
    (.str "o") .none (.int 100) (.int 1) .none .none .none
    rfl rfl rfl rfl rfl rfl rfl rfl rfl rfl rfl rfl rfl rfl rfl

/-- C6: every execute operation propagates a broadcast failure unchanged
to the caller — no catching, no retry, no transformation. -/
theorem executes_propagate_broadcast_errors (bc : Broadcaster) (e : PyErr)
    (hbc : ∀ tx, bc tx = .error e) (wallet : Wallet)
    (vault_addr lp_token_addr : String)
    (lp_token_code_id fee_collector generator_address
     up_pool_type is_disabled new_fee_info new_pool_config
     cp_pool_type cp_asset_infos cp_lp_name cp_lp_symbol cp_init
     jp_pool_id jp_recipient jp_assets jp_lp_to_mint jp_init
     swap_request sw_recipient owner expires_in
     amount pool_id recipient assets burn_amount : PyVal)
    (hc1 : cp_pool_type.hashable = true) (hc2 : cp_asset_infos.hashable = true)
    (hc3 : cp_lp_name.hashable = true) (hc4 : cp_lp_symbol.hashable = true)
    (hc5 : cp_init.hashable = true)
    (hj1 : jp_pool_id.hashable = true) (hj2 : jp_recipient.hashable = true)
    (hj3 : jp_assets.hashable = true) (hj4 : jp_lp_to_mint.hashable = true)
    (hj5 : jp_init.hashable = true)
    (hs1 : swap_request.hashable = true) (hs2 : sw_recipient.hashable = true)
    (ho1 : owner.hashable = true) (ho2 : expires_in.hashable = true)
    (hx : exceptIsOk (dict_to_b64
      (exit_pool_inner_msg pool_id recipient assets burn_amount)) = true) :
    (execute_vault_UpdateConfig bc wallet vault_addr lp_token_code_id fee_collector generator_address).1 = .error e ∧
    (execute_vault_UpdatePoolConfig bc wallet vault_addr up_pool_type is_disabled new_fee_info).1 = .error e ∧
    (execute_vault_AddToRegistery bc wallet vault_addr new_pool_config).1 = .error e ∧
    (execute_vault_CreatePoolInstance bc wallet vault_addr cp_pool_type cp_asset_infos cp_lp_name cp_lp_symbol cp_init).1 = .error e ∧
    (execute_vault_JoinPool bc wallet vault_addr jp_pool_id jp_recipient jp_assets jp_lp_to_mint jp_init).1 = .error e ∧
    (execute_vault_Swap bc wallet vault_addr swap_request sw_recipient).1 = .error e ∧
    (execute_vault_ProposeNewOwner bc wallet vault_addr owner expires_in).1 = .error e ∧
    (execute_vault_DropOwnershipProposal bc wallet vault_addr).1 = .error e ∧
    (execute_vault_ClaimOwnership bc wallet vault_addr).1 = .error e ∧
    (execute_vault_exit_pool bc wallet vault_addr lp_token_addr amount pool_id recipient assets burn_amount).1 = .error e :=
  ⟨runExecute_err bc e hbc wallet _ _ ⟨_, rfl⟩,
   runExecute_err bc e hbc wallet _ _ ⟨_, rfl⟩,
   runExecute_err bc e hbc wallet _ _ ⟨_, rfl⟩,
   runExecute_err bc e hbc wallet _ _ (do_mkDict_ok _ _ (by simp [hc1, hc2, hc3, hc4, hc5])),
   runExecute_err bc e hbc wallet _ _ (do_mkDict_ok _ _ (by simp [hj1, hj2, hj3, hj4, hj5])),
   runExecute_err bc e hbc wallet _ _ (do_mkDict_ok _ _ (by simp [hs1, hs2])),
   runExecute_err bc e hbc wallet _ _ (do_mkDict_ok _ _ (by simp [ho1, ho2])),
   runExecute_err bc e hbc wallet _ _ ⟨_, rfl⟩,
   runExecute_err bc e hbc wallet _ _ ⟨_, rfl⟩,
   runExecute_err bc e hbc wallet _ _
     (exit_payload_ok vault_addr amount pool_id recipient assets burn_amount hx)⟩

/-- Witness for C6 at a concrete failing broadcaster. -/
theorem executes_propagate_broadcast_errors_witness :
    (execute_vault_UpdateConfig bcDown ⟨"s"⟩ "vault" .none .none .none).1 = .error (.lcdError "mempool full") ∧
    (execute_vault_UpdatePoolConfig bcDown ⟨"s"⟩ "vault" (.str "xyk") .none .none).1 = .error (.lcdError "mempool full") ∧
    (execute_vault_AddToRegistery bcDown ⟨"s"⟩ "vault" .none).1 = .error (.lcdError "mempool full") ∧
    (execute_vault_CreatePoolInstance bcDown ⟨"s"⟩ "vault" (.str "xyk") (.str "a") .none .none .none).1 = .error (.lcdError "mempool full") ∧
    (execute_vault_JoinPool bcDown ⟨"s"⟩ "vault" (.int 1) .none .none .none .none).1 = .error (.lcdError "mempool full") ∧
    (execute_vault_Swap bcDown ⟨"s"⟩ "vault" (.str "req") .none).1 = .error (.lcdError "mempool full") ∧
    (execute_vault_ProposeNewOwner bcDown ⟨"s"⟩ "vault" (.str "o") .none).1 = .error (.lcdError "mempool full") ∧
    (execute_vault_DropOwnershipProposal bcDown ⟨"s"⟩ "vault").1 = .error (.lcdError "mempool full") ∧
    (execute_vault_ClaimOwnership bcDown ⟨"s"⟩ "vault").1 = .error (.lcdError "mempool full") ∧
    (execute_vault_exit_pool bcDown ⟨"s"⟩ "vault" "lp" (.int 100) (.int 1) .none .none .none).1 = .error (.lcdError "mempool full") :=
  executes_propagate_broadcast_errors bcDown (.lcdError "mempool full")
    (fun _ => rfl) ⟨"s"⟩ "vault" "lp" .none .none .none (.str "xyk") .none .none
    .none (.str "xyk") (.str "a") .none .none .none (.int 1) .none .none .none
    .none (.str "req") .none (.str "o") .none (.int 100) (.int 1) .none .none
    .none rfl rfl rfl rfl rfl rfl rfl rfl rfl rfl rfl rfl rfl rfl rfl

/-- C7: every known symbolic pool name (`pool1` … `pool7`) maps to a
descriptor with a non-empty asset sequence and a kind in
{xyk, stableswap, stable5swap, weighted}; every other name fails the
lookup explicitly (`KeyError`, embedded as `Option.none`) rather than
producing a default descriptor. -/
theorem pools_table_wellformed :
    (∀ name, name ∈ ["pool1", "pool2", "pool3", "pool4", "pool5", "pool6", "pool7"] →
       ∃ d, POOLS_getitem name = some d ∧ d.assets ≠ [] ∧ d.type ∈ poolKinds) ∧
    (∀ name, name ∉ ["pool1", "pool2", "pool3", "pool4", "pool5", "pool6", "pool7"] →
       POOLS_getitem name = Option.none) := by
  constructor
  · intro name h
    simp only [List.mem_cons, List.not_mem_nil, or_false] at h
    rcases h with rfl | rfl | rfl | rfl | rfl | rfl | rfl
    all_goals exact ⟨_, rfl, by simp [POOLS], by decide⟩
  · intro name h
    simp only [List.mem_cons, List.not_mem_nil, or_false, not_or] at h
    obtain ⟨h1, h2, h3, h4, h5, h6, h7⟩ := h
    have e1 : (name == "pool1") = false := beq_eq_false_iff_ne.mpr h1
    have e2 : (name == "pool2") = false := beq_eq_false_iff_ne.mpr h2
    have e3 : (name == "pool3") = false := beq_eq_false_iff_ne.mpr h3
    have e4 : (name == "pool4") = false := beq_eq_false_iff_ne.mpr h4
    have e5 : (name == "pool5") = false := beq_eq_false_iff_ne.mpr h5
    have e6 : (name == "pool6") = false := beq_eq_false_iff_ne.mpr h6
    have e7 : (name == "pool7") = false := beq_eq_false_iff_ne.mpr h7
    simp [POOLS_getitem, POOLS, List.lookup, e1, e2, e3, e4, e5, e6, e7]

/-- Witness for C7: a known name resolves to a well-formed descriptor,
an unknown name fails the lookup. -/
theorem pools_table_wellformed_witness :
    (∃ d, POOLS_getitem "pool1" = some d ∧ d.assets ≠ [] ∧ d.type ∈ poolKinds) ∧
    POOLS_getitem "pool99" = Option.none :=
  ⟨pools_table_wellformed.1 "pool1" (by decide),
   pools_table_wellformed.2 "pool99" (by decide)⟩

/-! ## Base64 round trip -/

/-- Decoding a sextet character recovers the sextet. -/
theorem b64Val_b64Char : ∀ n : Fin 64, b64Val (b64Char n.val) = some n.val := by
  decide

/-- Alphabet characters are never the padding character. -/
theorem b64Char_ne_pad : ∀ n : Fin 64, b64Char n.val ≠ '=' := by
  decide

/-- `b64Val` of a sextet character, for `n < 64`. -/
theorem b64Val_b64Char_of_lt (n : Nat) (h : n < 64) :
    b64Val (b64Char n) = some n := b64Val_b64Char ⟨n, h⟩

/-- `b64Char n` is never the padding character, stated on `Nat`. -/
theorem b64Char_ne_pad_of_lt (n : Nat) (h : n < 64) : b64Char n ≠ '=' :=
  b64Char_ne_pad ⟨n, h⟩

/-- Standard base64 decoding inverts standard base64 encoding on byte
sequences. -/
theorem b64_roundtrip (bs : List Nat) (h : ∀ b ∈ bs, b < 256) :
    b64decode (b64encode bs) = some bs := by
  match bs with
  | [] => rfl
  | [a] =>
      have ha : a < 256 := h a (by simp)
      simp [b64encode, b64decode,
        b64Val_b64Char_of_lt (a / 4) (by omega),
        b64Val_b64Char_of_lt (a % 4 * 16) (by omega)]
      omega
  | [a, b] =>
      have ha : a < 256 := h a (by simp)
      have hb : b < 256 := h b (by simp)
      simp [b64encode, b64decode,
        b64Char_ne_pad_of_lt (b % 16 * 4) (by omega),
        b64Val_b64Char_of_lt (a / 4) (by omega),
        b64Val_b64Char_of_lt (a % 4 * 16 + b / 16) (by omega),
        b64Val_b64Char_of_lt (b % 16 * 4) (by omega)]
      omega
  | a :: b :: c :: rest =>
      have ha : a < 256 := h a (by simp)
      have hb : b < 256 := h b (by simp)
      have hc : c < 256 := h c (by simp)
      have ih := b64_roundtrip rest (fun x hx => h x (by simp [hx]))
      simp [b64encode, b64decode,
        b64Char_ne_pad_of_lt (c % 64) (by omega),
        b64Val_b64Char_of_lt (a / 4) (by omega),
        b64Val_b64Char_of_lt (a % 4 * 16 + b / 16) (by omega),
        b64Val_b64Char_of_lt (b % 16 * 4 + c / 64) (by omega),
        b64Val_b64Char_of_lt (c % 64) (by omega), ih]
      omega
  termination_by bs.length

/-! ## Decimal digits round trip -/

/-- `digitChar` produces digit characters. -/
theorem digitChar_isDigit (d : Nat) (h : d < 10) : isDigitChar (digitChar d) = true := by
  interval_cases d <;> rfl

/-- `digitVal` inverts `digitChar`. -/
theorem digitVal_digitChar (d : Nat) (h : d < 10) : digitVal (digitChar d) = d := by
  interval_cases d <;> rfl

/-- With fuel above `n`, the digit rendering of `n` is a nonempty
digit string whose value is `n`. -/
theorem natToDigitsAux_spec : ∀ fuel n : Nat, n < fuel →
    natToDigitsAux fuel n ≠ [] ∧
    (∀ c ∈ natToDigitsAux fuel n, isDigitChar c = true) ∧
    digitsVal (natToDigitsAux fuel n) = n := by
  intro fuel
  induction fuel with
  | zero => omega
  | succ f ih =>
      intro n hn
      by_cases h10 : n < 10
      · refine ⟨by simp [natToDigitsAux, h10], ?_, ?_⟩
        · intro c hc
          simp [natToDigitsAux, h10] at hc
          subst hc
          exact digitChar_isDigit n h10
        · simp [natToDigitsAux, h10, digitsVal, digitVal_digitChar n h10]
      · have hlt : n / 10 < f := by omega
        obtain ⟨hne, hdig, hval⟩ := ih (n / 10) hlt
        refine ⟨by simp [natToDigitsAux, h10], ?_, ?_⟩
        · intro c hc
          simp only [natToDigitsAux, h10, if_false, List.mem_append,
            List.mem_singleton] at hc
          rcases hc with hc | hc
          · exact hdig c hc
          · subst hc
            exact digitChar_isDigit _ (by omega)
        · simp only [natToDigitsAux, h10, if_false, digitsVal, List.foldl_append,
            List.foldl_cons, List.foldl_nil]
          have : digitsVal (natToDigitsAux f (n / 10)) = n / 10 := hval
          simp only [digitsVal] at this
          rw [this, digitVal_digitChar _ (by omega)]
          omega

/-- The digit rendering of `n` is a nonempty digit string of value `n`. -/
theorem natToDigits_spec (n : Nat) :
    natToDigits n ≠ [] ∧
    (∀ c ∈ natToDigits n, isDigitChar c = true) ∧
    digitsVal (natToDigits n) = n :=
  natToDigitsAux_spec (n + 1) n (by omega)

/-- `takeWhile`/`dropWhile` split an append at the predicate boundary. -/
theorem takeWhile_dropWhile_append (p : Char → Bool) (l r : List Char)
    (hl : ∀ c ∈ l, p c = true) (hr : ∀ c, r.head? = some c → p c = false) :
    (l ++ r).takeWhile p = l ∧ (l ++ r).dropWhile p = r := by
  induction l with
  | nil =>
      cases r with
      | nil => simp
      | cons c r' => simp [List.takeWhile_cons, List.dropWhile_cons, hr c rfl]
  | cons c l' ih =>
      have hc : p c = true := hl c (by simp)
      obtain ⟨ht, hd⟩ := ih (fun x hx => hl x (by simp [hx]))
      simp [List.takeWhile_cons, List.dropWhile_cons, hc, ht, hd]

/-- `parseNat` recovers `n` from its digit rendering followed by a
non-digit remainder. -/
theorem parseNat_natToDigits (n : Nat) (rest : List Char)
    (hrest : ∀ c, rest.head? = some c → isDigitChar c = false) :
    parseNat (natToDigits n ++ rest) = some (n, rest) := by
  obtain ⟨hne, hdig, hval⟩ := natToDigits_spec n
  obtain ⟨ht, hd⟩ := takeWhile_dropWhile_append isDigitChar _ rest hdig hrest
  simp [parseNat, ht, hd, hval, List.isEmpty_iff, hne]

/-! ## Safe strings round trip -/

/-- A safe character needs no JSON escape. -/
theorem escapeChar_safe (c : Char) (h : safeChar c = true) : escapeChar c = [c] := by
  have hb : 32 ≤ c.toNat ∧ c.toNat < 127 ∧ ¬c = dquote ∧ ¬c = bslash := by
    have := h
    simp only [safeChar, Bool.and_eq_true, decide_eq_true_eq,
      Bool.not_eq_true', decide_eq_false_iff_not] at this
    tauto
  unfold escapeChar
  rw [if_neg hb.2.2.1, if_neg hb.2.2.2,
    if_neg (fun he => by rw [he] at hb; revert hb; decide),
    if_neg (fun he => by rw [he] at hb; revert hb; decide),
    if_neg (fun he => by rw [he] at hb; revert hb; decide),
    if_neg (fun he => by rw [he] at hb; revert hb; decide),
    if_neg (fun he => by rw [he] at hb; revert hb; decide),
    if_neg (by simp only [Bool.or_eq_true, decide_eq_true_eq, not_or, not_lt, not_le]; omega)]

/-- Safe strings serialize verbatim. -/
theorem escChars_safe (cs : List Char) (h : ∀ c ∈ cs, safeChar c = true) :
    escChars cs = cs := by
  induction cs with
  | nil => rfl
  | cons c cs' ih =>
      simp only [escChars, List.map_cons, List.flatten_cons]
      rw [escapeChar_safe c (h c (by simp))]
      have := ih (fun x hx => h x (by simp [hx]))
      simp only [escChars] at this
      simp [this]

/-- The string-body parser recovers a safe string before its closing
quote. -/
theorem parseStrBody_safe (cs rest : List Char) (h : ∀ c ∈ cs, safeChar c = true) :
    parseStrBody (cs ++ dquote :: rest) = some (cs, rest) := by
  induction cs with
  | nil => simp [parseStrBody]
  | cons c cs' ih =>
      have hc := h c (by simp)
      have h1 : ¬c = dquote := by
        intro he
        rw [he] at hc
        exact absurd hc (by decide)
      have h2 : ¬c = bslash := by
        intro he
        rw [he] at hc
        exact absurd hc (by decide)
      simp [parseStrBody, h1, h2, ih (fun x hx => h x (by simp [hx]))]

/-- `Except` bind on a success, for rewriting `do` blocks. -/
theorem except_bind_ok {α β : Type} (a : α) (f : α → Except PyErr β) :
    (Except.ok a >>= f) = f a := rfl

/-- `Except` bind on an error, for rewriting `do` blocks. -/
theorem except_bind_err {α β : Type} (e : PyErr) (f : α → Except PyErr β) :
    ((Except.error e : Except PyErr α) >>= f) = Except.error e := rfl

/-! ## Head characters of serializations -/

/-- A digit character is none of the parser's dispatch characters. -/
theorem isDigitChar_ne (c : Char) (h : isDigitChar c = true) :
    ¬c = ']' ∧ ¬c = '-' ∧ ¬c = 'n' ∧ ¬c = 't' ∧ ¬c = 'f' ∧
    ¬c = dquote ∧ ¬c = '[' ∧ ¬c = lbrace := by
  refine ⟨?_, ?_, ?_, ?_, ?_, ?_, ?_, ?_⟩ <;>
    exact fun he => absurd h (by rw [he]; decide)

/-- Every serialization is nonempty and starts with a character other
than the array terminator `]`. -/
theorem json_dumps_head (v : PyVal) (cs : List Char)
    (h : json_dumps v = .ok cs) : ∃ c cs', cs = c :: cs' ∧ ¬c = ']' := by
  cases v with
  | none =>
      simp only [json_dumps, nullChars, Except.ok.injEq] at h
      exact ⟨'n', _, h.symm, by decide⟩
  | bool b =>
      cases b with
      | true =>
          simp only [json_dumps, trueChars, Except.ok.injEq] at h
          exact ⟨'t', _, h.symm, by decide⟩
      | false =>
          simp only [json_dumps, falseChars, Except.ok.injEq] at h
          exact ⟨'f', _, h.symm, by decide⟩
  | int n =>
      simp only [json_dumps, Except.ok.injEq] at h
      subst h
      unfold intChars
      by_cases hn : n < 0
      · exact ⟨'-', natToDigits n.natAbs, by simp [hn], by decide⟩
      · obtain ⟨hne, hdig, _⟩ := natToDigits_spec n.toNat
        cases hnd : natToDigits n.toNat with
        | nil => exact absurd hnd hne
        | cons c cs' =>
            refine ⟨c, cs', by simp [hn, hnd], ?_⟩
            exact (isDigitChar_ne c (hdig c (by rw [hnd]; simp))).1
  | str s =>
      simp only [json_dumps, Except.ok.injEq] at h
      exact ⟨dquote, _, h.symm, by decide⟩
  | list xs =>
      cases h1 : dumpsElems xs with
      | error e => rw [json_dumps, h1] at h; exact absurd h (by simp [Except.map])
      | ok cs₁ =>
          rw [json_dumps, h1] at h
          simp only [Except.map, Except.ok.injEq] at h
          exact ⟨'[', cs₁, h.symm, by decide⟩
  | dict ms =>
      cases h1 : dumpsMembers ms with
      | error e => rw [json_dumps, h1] at h; exact absurd h (by simp [Except.map])
      | ok cs₁ =>
          rw [json_dumps, h1] at h
          simp only [Except.map, Except.ok.injEq] at h
          exact ⟨lbrace, cs₁, h.symm, by decide⟩

/-- An element tail starts with `,` or `]` — never a digit. -/
theorem dumpsElemsTail_head (xs : List PyVal) (cs : List Char)
    (h : dumpsElemsTail xs = .ok cs) :
    ∃ c cs', cs = c :: cs' ∧ isDigitChar c = false := by
  cases xs with
  | nil =>
      simp only [dumpsElemsTail, Except.ok.injEq] at h
      exact ⟨']', [], h.symm, by decide⟩
  | cons x xs' =>
      cases h1 : json_dumps x with
      | error e =>
          rw [dumpsElemsTail, h1, except_bind_err] at h
          exact Except.noConfusion h
      | ok cx =>
          cases h2 : dumpsElemsTail xs' with
          | error e =>
              rw [dumpsElemsTail, h1, except_bind_ok, h2, except_bind_err] at h
              exact Except.noConfusion h
          | ok ct =>
              rw [dumpsElemsTail, h1, except_bind_ok, h2, except_bind_ok] at h
              simp only [Except.ok.injEq] at h
              exact ⟨',', ' ' :: cx ++ ct, h.symm, by decide⟩

/-- A member tail starts with `,` or the closing brace — never a digit. -/
theorem dumpsMembersTail_head (ms : List (PyVal × PyVal)) (cs : List Char)
    (h : dumpsMembersTail ms = .ok cs) :
    ∃ c cs', cs = c :: cs' ∧ isDigitChar c = false := by
  cases ms with
  | nil =>
      simp only [dumpsMembersTail, Except.ok.injEq] at h
      exact ⟨rbrace, [], h.symm, by decide⟩
  | cons m ms' =>
      cases h1 : dumpsMember m with
      | error e =>
          rw [dumpsMembersTail, h1, except_bind_err] at h
          exact Except.noConfusion h
      | ok cm =>
          cases h2 : dumpsMembersTail ms' with
          | error e =>
              rw [dumpsMembersTail, h1, except_bind_ok, h2, except_bind_err] at h
              exact Except.noConfusion h
          | ok ct =>
              rw [dumpsMembersTail, h1, except_bind_ok, h2, except_bind_ok] at h
              simp only [Except.ok.injEq] at h
              exact ⟨',', ' ' :: cm ++ ct, h.symm, by decide⟩

/-! ## Serialization succeeds on safe values, with ASCII output -/

/-- All characters below 128. -/
def allAscii (cs : List Char) : Bool := cs.all (fun c => c.toNat < 128)

/-- Membership form of `allAscii`. -/
theorem allAscii_iff (cs : List Char) :
    allAscii cs = true ↔ ∀ c ∈ cs, c.toNat < 128 := by
  simp [allAscii, List.all_eq_true]

/-- `allAscii` over an append. -/
theorem allAscii_append (a b : List Char) :
    allAscii (a ++ b) = (allAscii a && allAscii b) := by
  simp [allAscii]

/-- `allAscii` over a cons. -/
theorem allAscii_cons (c : Char) (cs : List Char) :
    allAscii (c :: cs) = (decide (c.toNat < 128) && allAscii cs) := by
  simp [allAscii]

/-- `allAscii` of the empty list. -/
theorem allAscii_nil : allAscii [] = true := rfl

/-- Digit characters are ASCII. -/
theorem isDigitChar_ascii (c : Char) (h : isDigitChar c = true) : c.toNat < 128 := by
  simp only [isDigitChar, Bool.and_eq_true, decide_eq_true_eq] at h
  omega

/-- Safe characters are ASCII. -/
theorem safeChar_ascii (c : Char) (h : safeChar c = true) : c.toNat < 128 := by
  simp only [safeChar, Bool.and_eq_true, decide_eq_true_eq] at h
  omega

/-- The digit rendering of a natural number is ASCII. -/
theorem natToDigits_ascii (n : Nat) : allAscii (natToDigits n) = true :=
  (allAscii_iff _).mpr fun c hc => isDigitChar_ascii c ((natToDigits_spec n).2.1 c hc)

/-- The rendering of an integer is ASCII. -/
theorem intChars_ascii (n : Int) : allAscii (intChars n) = true := by
  rw [allAscii_iff]
  intro c hc
  unfold intChars at hc
  by_cases hn : n < 0
  · simp only [hn, if_true, List.mem_cons] at hc
    rcases hc with rfl | hc
    · decide
    · exact isDigitChar_ascii c ((natToDigits_spec n.natAbs).2.1 c hc)
  · simp only [hn, if_false] at hc
    exact isDigitChar_ascii c ((natToDigits_spec n.toNat).2.1 c hc)

mutual

/-- On a safe value, `json.dumps` succeeds and its output is ASCII. -/
theorem dumps_ok_v (v : PyVal) (h : SafeV v = true) :
    ∃ cs, json_dumps v = .ok cs ∧ allAscii cs = true := by
  cases v with
  | none => exact ⟨nullChars, rfl, by decide⟩
  | int n => exact ⟨intChars n, rfl, intChars_ascii n⟩
  | bool b =>
      cases b with
      | true => exact ⟨trueChars, rfl, by decide⟩
      | false => exact ⟨falseChars, rfl, by decide⟩
  | str s =>
      refine ⟨dquote :: escChars s.data ++ [dquote], rfl, ?_⟩
      have hsafe : ∀ c ∈ s.data, safeChar c = true := by
        simpa [SafeV, List.all_eq_true] using h
      have hda : allAscii s.data = true :=
        (allAscii_iff _).mpr fun c hc => safeChar_ascii c (hsafe c hc)
      have d1 : dquote.toNat < 128 := by decide
      rw [escChars_safe s.data hsafe]
      simp [allAscii_cons, allAscii_append, allAscii_nil, hda, d1]
  | list xs =>
      obtain ⟨cs, hcs, ha⟩ := dumps_ok_elems xs h
      refine ⟨'[' :: cs, ?_, ?_⟩
      · rw [json_dumps, hcs]
        rfl
      · simp [allAscii_cons, ha]
  | dict ms =>
      obtain ⟨cs, hcs, ha⟩ := dumps_ok_members ms h
      have d2 : lbrace.toNat < 128 := by decide
      refine ⟨lbrace :: cs, ?_, ?_⟩
      · rw [json_dumps, hcs]
        rfl
      · simp [allAscii_cons, ha, d2]

/-- On safe elements, the array-body serializer succeeds with ASCII output. -/
theorem dumps_ok_elems (xs : List PyVal) (h : SafeL xs = true) :
    ∃ cs, dumpsElems xs = .ok cs ∧ allAscii cs = true := by
  cases xs with
  | nil => exact ⟨[']'], rfl, by decide⟩
  | cons x xs' =>
      have hx : SafeV x = true := by
        simp only [SafeL, Bool.and_eq_true] at h
        exact h.1
      have hxs : SafeL xs' = true := by
        simp only [SafeL, Bool.and_eq_true] at h
        exact h.2
      obtain ⟨cx, hcx, hax⟩ := dumps_ok_v x hx
      obtain ⟨ct, hct, hat⟩ := dumps_ok_elems_tail xs' hxs
      refine ⟨cx ++ ct, ?_, ?_⟩
      · rw [dumpsElems, hcx, except_bind_ok, hct, except_bind_ok]
      · simp [allAscii_append, hax, hat]

/-- On safe elements, the array-tail serializer succeeds with ASCII output. -/
theorem dumps_ok_elems_tail (xs : List PyVal) (h : SafeL xs = true) :
    ∃ cs, dumpsElemsTail xs = .ok cs ∧ allAscii cs = true := by
  cases xs with
  | nil => exact ⟨[']'], rfl, by decide⟩
  | cons x xs' =>
      have hx : SafeV x = true := by
        simp only [SafeL, Bool.and_eq_true] at h
        exact h.1
      have hxs : SafeL xs' = true := by
        simp only [SafeL, Bool.and_eq_true] at h
        exact h.2
      obtain ⟨cx, hcx, hax⟩ := dumps_ok_v x hx
      obtain ⟨ct, hct, hat⟩ := dumps_ok_elems_tail xs' hxs
      refine ⟨',' :: ' ' :: cx ++ ct, ?_, ?_⟩
      · rw [dumpsElemsTail, hcx, except_bind_ok, hct, except_bind_ok]
      · simp [allAscii_cons, allAscii_append, hax, hat]

/-- On a safe member, the member serializer succeeds with ASCII output. -/
theorem dumps_ok_member (m : PyVal × PyVal) (h : SafeMem m = true) :
    ∃ cs, dumpsMember m = .ok cs ∧ allAscii cs = true := by
  obtain ⟨k, v⟩ := m
  have hv : SafeV v = true := by
    simp only [SafeMem, Bool.and_eq_true] at h
    exact h.2
  obtain ⟨cv, hcv, hav⟩ := dumps_ok_v v hv
  cases k with
  | str key =>
      have hkey : ∀ c ∈ key.data, safeChar c = true := by
        simp only [SafeMem, Bool.and_eq_true, List.all_eq_true] at h
        exact fun c hc => h.1 c hc
      refine ⟨(dquote :: escChars key.data ++ [dquote]) ++ ':' :: ' ' :: cv, ?_, ?_⟩
      · rw [dumpsMember]
        rw [show dumpsKey (.str key) = .ok (dquote :: escChars key.data ++ [dquote]) from rfl]
        rw [except_bind_ok, hcv, except_bind_ok]
      · have hka : allAscii key.data = true :=
          (allAscii_iff _).mpr fun c hc => safeChar_ascii c (hkey c hc)
        have d1 : dquote.toNat < 128 := by decide
        rw [escChars_safe key.data hkey]
        simp [allAscii_cons, allAscii_append, hka, hav, d1]
  | none => simp [SafeMem] at h
  | int n => simp [SafeMem] at h
  | bool b => simp [SafeMem] at h
  | list l => simp [SafeMem] at h
  | dict d => simp [SafeMem] at h

/-- On safe members, the object-body serializer succeeds with ASCII output. -/
theorem dumps_ok_members (ms : List (PyVal × PyVal)) (h : SafeM ms = true) :
    ∃ cs, dumpsMembers ms = .ok cs ∧ allAscii cs = true := by
  cases ms with
  | nil => exact ⟨[rbrace], rfl, by decide⟩
  | cons m ms' =>
      have hm : SafeMem m = true := by
        simp only [SafeM, Bool.and_eq_true] at h
        exact h.1
      have hms : SafeM ms' = true := by
        simp only [SafeM, Bool.and_eq_true] at h
        exact h.2
      obtain ⟨cm, hcm, ham⟩ := dumps_ok_member m hm
      obtain ⟨ct, hct, hat⟩ := dumps_ok_members_tail ms' hms
      refine ⟨cm ++ ct, ?_, ?_⟩
      · rw [dumpsMembers, hcm, except_bind_ok, hct, except_bind_ok]
      · simp [allAscii_append, ham, hat]

/-- On safe members, the object-tail serializer succeeds with ASCII output. -/
theorem dumps_ok_members_tail (ms : List (PyVal × PyVal)) (h : SafeM ms = true) :
    ∃ cs, dumpsMembersTail ms = .ok cs ∧ allAscii cs = true := by
  cases ms with
  | nil => exact ⟨[rbrace], rfl, by decide⟩
  | cons m ms' =>
      have hm : SafeMem m = true := by
        simp only [SafeM, Bool.and_eq_true] at h
        exact h.1
      have hms : SafeM ms' = true := by
        simp only [SafeM, Bool.and_eq_true] at h
        exact h.2
      obtain ⟨cm, hcm, ham⟩ := dumps_ok_member m hm
      obtain ⟨ct, hct, hat⟩ := dumps_ok_members_tail ms' hms
      refine ⟨',' :: ' ' :: cm ++ ct, ?_, ?_⟩
      · rw [dumpsMembersTail, hcm, except_bind_ok, hct, except_bind_ok]
      · simp [allAscii_cons, allAscii_append, ham, hat]

end

/-! ## The canonical parser inverts the serializer on safe values -/

/-- `dumpsKey` output always starts with a quote. -/
theorem dumpsKey_head (k : PyVal) (ck : List Char) (h : dumpsKey k = .ok ck) :
    ∃ t, ck = dquote :: t := by
  cases k with
  | str s =>
      simp only [dumpsKey, Except.ok.injEq] at h
      exact ⟨_, h.symm⟩
  | none =>
      simp only [dumpsKey, Except.ok.injEq] at h
      exact ⟨_, h.symm⟩
  | int n =>
      simp only [dumpsKey, Except.ok.injEq] at h
      exact ⟨_, h.symm⟩
  | bool b =>
      cases b with
      | true =>
          simp only [dumpsKey, Except.ok.injEq] at h
          exact ⟨_, h.symm⟩
      | false =>
          simp only [dumpsKey, Except.ok.injEq] at h
          exact ⟨_, h.symm⟩
  | list l => exact absurd h (by simp [dumpsKey])
  | dict d => exact absurd h (by simp [dumpsKey])

/-- `dumpsMember` output always starts with a quote. -/
theorem dumpsMember_head (m : PyVal × PyVal) (cm : List Char)
    (h : dumpsMember m = .ok cm) : ∃ t, cm = dquote :: t := by
  obtain ⟨k, v⟩ := m
  cases hk : dumpsKey k with
  | error e =>
      rw [dumpsMember, hk, except_bind_err] at h
      exact Except.noConfusion h
  | ok ck =>
      cases hv : json_dumps v with
      | error e =>
          rw [dumpsMember, hk, except_bind_ok, hv, except_bind_err] at h
          exact Except.noConfusion h
      | ok cv =>
          rw [dumpsMember, hk, except_bind_ok, hv, except_bind_ok] at h
          simp only [Except.ok.injEq] at h
          obtain ⟨t, hckt⟩ := dumpsKey_head k ck hk
          refine ⟨t ++ ':' :: ' ' :: cv, ?_⟩
          rw [← h, hckt]
          simp

/-- `Option` bind on `some`, for rewriting the parser's `do` blocks. -/
theorem opt_bind_some {α β : Type} (a : α) (f : α → Option β) :
    (some a >>= f) = f a := rfl

mutual

/-- The canonical parser recovers a safe value from its serialization,
leaving any non-digit-headed remainder untouched. -/
theorem parse_dumps_v (fuel : Nat) (v : PyVal) (cs rest : List Char)
    (hs : SafeV v = true) (hd : json_dumps v = .ok cs)
    (hfuel : 2 * cs.length + 2 ≤ fuel)
    (hrest : ∀ c, rest.head? = some c → isDigitChar c = false) :
    parseValue fuel (cs ++ rest) = some (v, rest) := by
  cases v with
  | none =>
      simp only [json_dumps, nullChars, Except.ok.injEq] at hd
      subst hd
      cases fuel with
      | zero => omega
      | succ f => rfl
  | bool b =>
      cases b with
      | true =>
          simp only [json_dumps, trueChars, Except.ok.injEq] at hd
          subst hd
          cases fuel with
          | zero => omega
          | succ f => rfl
      | false =>
          simp only [json_dumps, falseChars, Except.ok.injEq] at hd
          subst hd
          cases fuel with
          | zero => omega
          | succ f => rfl
  | int n =>
      simp only [json_dumps, Except.ok.injEq] at hd
      subst hd
      by_cases hn : n < 0
      · cases fuel with
        | zero => omega
        | succ f =>
            have hsplit : intChars n = '-' :: natToDigits n.natAbs := by
              simp [intChars, hn]
            rw [hsplit]
            simp only [List.cons_append, parseValue]
            have e1 : isDigitChar '-' = false := rfl
            rw [if_neg (by simp [e1])]
            rw [if_pos (show True from trivial)]
            rw [parseNat_natToDigits n.natAbs rest hrest]
            simp only [Option.map_some']
            have : -((n.natAbs : Nat) : Int) = n := by omega
            rw [this]
      · cases fuel with
        | zero => omega
        | succ f =>
            have hsplit : intChars n = natToDigits n.toNat := by
              simp [intChars, hn]
            rw [hsplit]
            obtain ⟨hne, hdig, _⟩ := natToDigits_spec n.toNat
            cases hnd : natToDigits n.toNat with
            | nil => exact absurd hnd hne
            | cons c cs' =>
                have hc : isDigitChar c = true := hdig c (by rw [hnd]; simp)
                simp only [List.cons_append, parseValue]
                rw [if_pos hc]
                rw [show c :: (cs' ++ rest) = (c :: cs') ++ rest from rfl, ← hnd]
                rw [parseNat_natToDigits n.toNat rest hrest]
                simp only [Option.map_some']
                have : ((n.toNat : Nat) : Int) = n := by omega
                rw [this]
  | str s =>
      simp only [json_dumps, Except.ok.injEq] at hd
      subst hd
      have hsafe : ∀ c ∈ s.data, safeChar c = true := by
        simpa [SafeV, List.all_eq_true] using hs
      cases fuel with
      | zero => omega
      | succ f =>
          rw [escChars_safe s.data hsafe]
          simp only [List.cons_append, List.append_assoc, List.singleton_append,
            parseValue]
          have e1 : isDigitChar dquote = false := rfl
          rw [if_neg (by simp [e1]), if_neg (by decide), if_neg (by decide),
            if_neg (by decide), if_neg (by decide)]
          rw [if_pos (show True from trivial)]
          rw [show s.data ++ dquote :: ([] ++ rest) = s.data ++ dquote :: rest
            from by simp]
          rw [parseStrBody_safe s.data rest hsafe]
          rfl
  | list xs =>
      have hsL : SafeL xs = true := hs
      cases h1 : dumpsElems xs with
      | error e =>
          rw [json_dumps, h1] at hd
          exact absurd hd (by simp [Except.map])
      | ok cs₁ =>
          rw [json_dumps, h1] at hd
          simp only [Except.map, Except.ok.injEq] at hd
          subst hd
          cases fuel with
          | zero => omega
          | succ f =>
              simp only [List.cons_append, parseValue]
              have e1 : isDigitChar '[' = false := rfl
              rw [if_neg (by simp [e1]), if_neg (by decide), if_neg (by decide),
                if_neg (by decide), if_neg (by decide), if_neg (by decide)]
              rw [if_pos (show True from trivial)]
              rw [parse_dumps_elems f xs cs₁ rest hsL h1 (by
                simp only [List.length_cons] at hfuel
                omega)]
              rfl
  | dict ms =>
      have hsM : SafeM ms = true := hs
      cases h1 : dumpsMembers ms with
      | error e =>
          rw [json_dumps, h1] at hd
          exact absurd hd (by simp [Except.map])
      | ok cs₁ =>
          rw [json_dumps, h1] at hd
          simp only [Except.map, Except.ok.injEq] at hd
          subst hd
          cases fuel with
          | zero => omega
          | succ f =>
              simp only [List.cons_append, parseValue]
              have e1 : isDigitChar lbrace = false := rfl
              rw [if_neg (by simp [e1]), if_neg (by decide), if_neg (by decide),
                if_neg (by decide), if_neg (by decide), if_neg (by decide),
                if_neg (by decide)]
              rw [if_pos (show True from trivial)]
              rw [parse_dumps_members f ms cs₁ rest hsM h1 (by
                simp only [List.length_cons] at hfuel
                omega)]
              rfl

/-- The array-body parser recovers safe elements. -/
theorem parse_dumps_elems (fuel : Nat) (xs : List PyVal) (cs rest : List Char)
    (hs : SafeL xs = true) (hd : dumpsElems xs = .ok cs)
    (hfuel : 2 * cs.length + 3 ≤ fuel) :
    parseElems fuel (cs ++ rest) = some (xs, rest) := by
  cases xs with
  | nil =>
      simp only [dumpsElems, Except.ok.injEq] at hd
      subst hd
      cases fuel with
      | zero => omega
      | succ f => rfl
  | cons x xs' =>
      have hx : SafeV x = true := by
        simp only [SafeL, Bool.and_eq_true] at hs
        exact hs.1
      have hxs : SafeL xs' = true := by
        simp only [SafeL, Bool.and_eq_true] at hs
        exact hs.2
      cases h1 : json_dumps x with
      | error e =>
          rw [dumpsElems, h1, except_bind_err] at hd
          exact Except.noConfusion hd
      | ok cx =>
          cases h2 : dumpsElemsTail xs' with
          | error e =>
              rw [dumpsElems, h1, except_bind_ok, h2, except_bind_err] at hd
              exact Except.noConfusion hd
          | ok ct =>
              rw [dumpsElems, h1, except_bind_ok, h2, except_bind_ok] at hd
              simp only [Except.ok.injEq] at hd
              subst hd
              obtain ⟨c, cs', hcx, hcne⟩ := json_dumps_head x cx h1
              obtain ⟨ch, ctt, hct, hcd⟩ := dumpsElemsTail_head xs' ct h2
              cases fuel with
              | zero => omega
              | succ f =>
                  simp only [List.length_append] at hfuel
                  rw [hcx]
                  simp only [List.cons_append, List.append_assoc, parseElems]
                  rw [if_neg hcne]
                  rw [show c :: (cs' ++ (ct ++ rest)) = (c :: cs') ++ (ct ++ rest)
                    from rfl, ← hcx]
                  rw [parse_dumps_v f x cx (ct ++ rest) hx h1 (by omega)
                    (by
                      intro cc hcc
                      rw [hct, List.cons_append, List.head?_cons,
                        Option.some.injEq] at hcc
                      rw [← hcc]
                      exact hcd)]
                  simp only [opt_bind_some]
                  rw [parse_dumps_elems_tail f xs' ct rest hxs h2 (by omega)]
                  rfl

/-- The array-tail parser recovers safe elements after the first. -/
theorem parse_dumps_elems_tail (fuel : Nat) (xs : List PyVal) (cs rest : List Char)
    (hs : SafeL xs = true) (hd : dumpsElemsTail xs = .ok cs)
    (hfuel : 2 * cs.length + 2 ≤ fuel) :
    parseElemsTail fuel (cs ++ rest) = some (xs, rest) := by
  cases xs with
  | nil =>
      simp only [dumpsElemsTail, Except.ok.injEq] at hd
      subst hd
      cases fuel with
      | zero => omega
      | succ f => rfl
  | cons x xs' =>
      have hx : SafeV x = true := by
        simp only [SafeL, Bool.and_eq_true] at hs
        exact hs.1
      have hxs : SafeL xs' = true := by
        simp only [SafeL, Bool.and_eq_true] at hs
        exact hs.2
      cases h1 : json_dumps x with
      | error e =>
          rw [dumpsElemsTail, h1, except_bind_err] at hd
          exact Except.noConfusion hd
      | ok cx =>
          cases h2 : dumpsElemsTail xs' with
          | error e =>
              rw [dumpsElemsTail, h1, except_bind_ok, h2, except_bind_err] at hd
              exact Except.noConfusion hd
          | ok ct =>
              rw [dumpsElemsTail, h1, except_bind_ok, h2, except_bind_ok] at hd
              simp only [Except.ok.injEq] at hd
              subst hd
              obtain ⟨ch, ctt, hct, hcd⟩ := dumpsElemsTail_head xs' ct h2
              cases fuel with
              | zero => omega
              | succ f =>
                  simp only [List.length_cons, List.length_append] at hfuel
                  rw [show (',' :: ' ' :: cx ++ ct) ++ rest
                      = ',' :: ' ' :: (cx ++ (ct ++ rest)) from by simp]
                  simp only [parseElemsTail]
                  rw [if_neg (by decide)]
                  rw [parse_dumps_v f x cx (ct ++ rest) hx h1 (by omega)
                    (by
                      intro cc hcc
                      rw [hct, List.cons_append, List.head?_cons,
                        Option.some.injEq] at hcc
                      rw [← hcc]
                      exact hcd)]
                  simp only [opt_bind_some]
                  rw [parse_dumps_elems_tail f xs' ct rest hxs h2 (by omega)]
                  rfl

/-- The member parser recovers a safe member. -/
theorem parse_dumps_member (fuel : Nat) (m : PyVal × PyVal) (cs rest : List Char)
    (hs : SafeMem m = true) (hd : dumpsMember m = .ok cs)
    (hfuel : 2 * cs.length + 2 ≤ fuel)
    (hrest : ∀ c, rest.head? = some c → isDigitChar c = false) :
    parseMember fuel (cs ++ rest) = some (m, rest) := by
  obtain ⟨k, v⟩ := m
  have hv : SafeV v = true := by
    simp only [SafeMem, Bool.and_eq_true] at hs
    exact hs.2
  cases k with
  | none => simp [SafeMem] at hs
  | int n => simp [SafeMem] at hs
  | bool b => simp [SafeMem] at hs
  | list l => simp [SafeMem] at hs
  | dict d => simp [SafeMem] at hs
  | str key =>
      have hkey : ∀ c ∈ key.data, safeChar c = true := by
        simp only [SafeMem, Bool.and_eq_true, List.all_eq_true] at hs
        exact fun c hc => hs.1 c hc
      cases h2 : json_dumps v with
      | error e =>
          rw [dumpsMember,
            show dumpsKey (.str key) = .ok (dquote :: escChars key.data ++ [dquote])
              from rfl, except_bind_ok, h2, except_bind_err] at hd
          exact Except.noConfusion hd
      | ok cv =>
          rw [dumpsMember,
            show dumpsKey (.str key) = .ok (dquote :: escChars key.data ++ [dquote])
              from rfl, except_bind_ok, h2, except_bind_ok] at hd
          simp only [Except.ok.injEq] at hd
          subst hd
          cases fuel with
          | zero => omega
          | succ f =>
              rw [escChars_safe key.data hkey] at hfuel ⊢
              simp only [List.length_append, List.length_cons] at hfuel
              rw [show ((dquote :: key.data ++ [dquote]) ++ ':' :: ' ' :: cv) ++ rest
                  = dquote :: (key.data ++ dquote :: (':' :: ' ' :: (cv ++ rest)))
                from by simp]
              simp only [parseMember]
              rw [if_pos (show True from trivial)]
              rw [parseStrBody_safe key.data (':' :: ' ' :: (cv ++ rest)) hkey]
              simp only [opt_bind_some]
              rw [parse_dumps_v f v cv rest hv h2 (by omega) hrest]
              rfl

/-- The object-body parser recovers safe members. -/
theorem parse_dumps_members (fuel : Nat) (ms : List (PyVal × PyVal))
    (cs rest : List Char)
    (hs : SafeM ms = true) (hd : dumpsMembers ms = .ok cs)
    (hfuel : 2 * cs.length + 3 ≤ fuel) :
    parseMembers fuel (cs ++ rest) = some (ms, rest) := by
  cases ms with
  | nil =>
      simp only [dumpsMembers, Except.ok.injEq] at hd
      subst hd
      cases fuel with
      | zero => omega
      | succ f =>
          simp only [List.singleton_append, parseMembers]
          rw [if_pos (show True from trivial)]
  | cons m ms' =>
      have hm : SafeMem m = true := by
        simp only [SafeM, Bool.and_eq_true] at hs
        exact hs.1
      have hms : SafeM ms' = true := by
        simp only [SafeM, Bool.and_eq_true] at hs
        exact hs.2
      cases h1 : dumpsMember m with
      | error e =>
          rw [dumpsMembers, h1, except_bind_err] at hd
          exact Except.noConfusion hd
      | ok cm =>
          cases h2 : dumpsMembersTail ms' with
          | error e =>
              rw [dumpsMembers, h1, except_bind_ok, h2, except_bind_err] at hd
              exact Except.noConfusion hd
          | ok ct =>
              rw [dumpsMembers, h1, except_bind_ok, h2, except_bind_ok] at hd
              simp only [Except.ok.injEq] at hd
              subst hd
              obtain ⟨ch, ctt, hct, hcd⟩ := dumpsMembersTail_head ms' ct h2
              obtain ⟨kt, hkt⟩ := dumpsMember_head m cm h1
              cases fuel with
              | zero => omega
              | succ f =>
                  simp only [List.length_append] at hfuel
                  rw [hkt]
                  simp only [List.cons_append, List.append_assoc, parseMembers]
                  rw [if_neg (by decide)]
                  rw [show dquote :: (kt ++ (ct ++ rest))
                      = (dquote :: kt) ++ (ct ++ rest) from rfl, ← hkt]
                  rw [parse_dumps_member f m cm (ct ++ rest) hm h1 (by omega)
                    (by
                      intro cc hcc
                      rw [hct, List.cons_append, List.head?_cons,
                        Option.some.injEq] at hcc
                      rw [← hcc]
                      exact hcd)]
                  simp only [opt_bind_some]
                  rw [parse_dumps_members_tail f ms' ct rest hms h2 (by omega)]
                  rfl

/-- The object-tail parser recovers safe members after the first. -/
theorem parse_dumps_members_tail (fuel : Nat) (ms : List (PyVal × PyVal))
    (cs rest : List Char)
    (hs : SafeM ms = true) (hd : dumpsMembersTail ms = .ok cs)
    (hfuel : 2 * cs.length + 2 ≤ fuel) :
    parseMembersTail fuel (cs ++ rest) = some (ms, rest) := by
  cases ms with
  | nil =>
      simp only [dumpsMembersTail, Except.ok.injEq] at hd
      subst hd
      cases fuel with
      | zero => omega
      | succ f =>
          simp only [List.singleton_append, parseMembersTail]
          rw [if_pos (show True from trivial)]
  | cons m ms' =>
      have hm : SafeMem m = true := by
        simp only [SafeM, Bool.and_eq_true] at hs
        exact hs.1
      have hms : SafeM ms' = true := by
        simp only [SafeM, Bool.and_eq_true] at hs
        exact hs.2
      cases h1 : dumpsMember m with
      | error e =>
          rw [dumpsMembersTail, h1, except_bind_err] at hd
          exact Except.noConfusion hd
      | ok cm =>
          cases h2 : dumpsMembersTail ms' with
          | error e =>
              rw [dumpsMembersTail, h1, except_bind_ok, h2, except_bind_err] at hd
              exact Except.noConfusion hd
          | ok ct =>
              rw [dumpsMembersTail, h1, except_bind_ok, h2, except_bind_ok] at hd
              simp only [Except.ok.injEq] at hd
              subst hd
              obtain ⟨ch, ctt, hct, hcd⟩ := dumpsMembersTail_head ms' ct h2
              cases fuel with
              | zero => omega
              | succ f =>
                  simp only [List.length_cons, List.length_append] at hfuel
                  rw [show (',' :: ' ' :: cm ++ ct) ++ rest
                      = ',' :: ' ' :: (cm ++ (ct ++ rest)) from by simp]
                  simp only [parseMembersTail]
                  rw [if_neg (by decide)]
                  rw [parse_dumps_member f m cm (ct ++ rest) hm h1 (by omega)
                    (by
                      intro cc hcc
                      rw [hct, List.cons_append, List.head?_cons,
                        Option.some.injEq] at hcc
                      rw [← hcc]
                      exact hcd)]
                  simp only [opt_bind_some]
                  rw [parse_dumps_members_tail f ms' ct rest hms h2 (by omega)]
                  rfl

end

/-- `json.loads` inverts `json.dumps` on safe values. -/
theorem json_loads_dumps (v : PyVal) (cs : List Char)
    (hs : SafeV v = true) (hd : json_dumps v = .ok cs) :
    json_loads (String.mk cs) = some v := by
  unfold json_loads
  have hp := parse_dumps_v (2 * cs.length + 2) v cs [] hs hd (le_refl _)
    (by intro c hc; simp at hc)
  rw [List.append_nil] at hp
  rw [show (String.mk cs).data = cs from rfl, hp]

/-- The decode pipeline (base64-decode, then JSON-parse) inverts
`dict_to_b64` on safe values. -/
theorem b64_json_decode_dict_to_b64 (v : PyVal) (hs : SafeV v = true) :
    ∃ s, dict_to_b64 v = .ok s ∧ b64_json_decode s = some v := by
  obtain ⟨cs, hcs, hascii⟩ := dumps_ok_v v hs
  have hall : ∀ c ∈ cs, c.toNat < 128 := (allAscii_iff cs).mp hascii
  have hbytes : ascii_bytes cs = .ok (cs.map Char.toNat) := by
    have : cs.all (fun c => c.toNat < 128) = true := hascii
    simp [ascii_bytes, this]
  refine ⟨String.mk (b64encode (cs.map Char.toNat)), ?_, ?_⟩
  · rw [dict_to_b64, hcs, except_bind_ok, hbytes, except_bind_ok]
  · unfold b64_json_decode
    rw [show (String.mk (b64encode (cs.map Char.toNat))).data
        = b64encode (cs.map Char.toNat) from rfl]
    rw [b64_roundtrip (cs.map Char.toNat) (by
      intro b hb
      simp only [List.mem_map] at hb
      obtain ⟨c, hc, rfl⟩ := hb
      have := hall c hc
      omega)]
    show json_loads (String.mk ((cs.map Char.toNat).map Char.ofNat)) = some v
    have hmap : (cs.map Char.toNat).map Char.ofNat = cs := by
      rw [List.map_map,
        show Char.ofNat ∘ Char.toNat = id from funext Char.ofNat_toNat,
        List.map_id]
    rw [hmap]
    exact json_loads_dumps v cs hs hcs

/-- C3: for every exit-pool call (safe pool id, recipient, assets and
burn amount), base64-decoding the `msg` field of the constructed CW20
`send` message and JSON-parsing the result yields exactly the inner
`exit_pool` message with the caller's values (standard base64, standard
padding, no extra conventions), and the outer envelope is addressed at
the LP-token contract address, not the vault address. -/
theorem exit_pool_payload_roundtrip (bc : Broadcaster) (wallet : Wallet)
    (vault_addr lp_token_addr : String)
    (amount pool_id recipient assets burn_amount : PyVal)
    (h1 : SafeV pool_id = true) (h2 : SafeV recipient = true)
    (h3 : SafeV assets = true) (h4 : SafeV burn_amount = true) :
    ∃ payload : String,
      dict_to_b64 (exit_pool_inner_msg pool_id recipient assets burn_amount)
        = .ok payload ∧
      b64_json_decode payload
        = some (exit_pool_inner_msg pool_id recipient assets burn_amount) ∧
      (execute_vault_exit_pool bc wallet vault_addr lp_token_addr
          amount pool_id recipient assets burn_amount).2 =
        [⟨[⟨wallet.acc_address, lp_token_addr,
            .dict [(.str "send", .dict
              [(.str "contract_addr", .str vault_addr), (.str "amount", amount),
               (.str "msg", .str payload)])]⟩], dexterFee⟩] := by
  have hsafe : SafeV (exit_pool_inner_msg pool_id recipient assets burn_amount) = true := by
    simp only [exit_pool_inner_msg, SafeV, SafeM, SafeMem, Bool.and_eq_true]
    exact ⟨⟨by decide, ⟨by decide, h1⟩, ⟨by decide, h2⟩, ⟨by decide, h3⟩,
      ⟨by decide, h4⟩, trivial⟩, trivial⟩
  obtain ⟨s, hok, hdec⟩ := b64_json_decode_dict_to_b64 _ hsafe
  refine ⟨s, hok, hdec, ?_⟩
  show (runExecute bc wallet lp_token_addr (do
    let payload ← dict_to_b64 (exit_pool_inner_msg pool_id recipient assets burn_amount)
    pure (.dict [(.str "send", .dict
      [(.str "contract_addr", .str vault_addr), (.str "amount", amount),
       (.str "msg", .str payload)])]))).2 = _
  rw [hok, except_bind_ok]
  exact runExecute_trace bc wallet lp_token_addr _

/-- Witness for C3 at concrete safe arguments. -/
theorem exit_pool_payload_roundtrip_witness :
    ∃ payload : String,
      dict_to_b64 (exit_pool_inner_msg (.int 15) (.str "persistence1recipient")
          (.list [nativeAsset "uxprt"]) (.int 1000)) = .ok payload ∧
      b64_json_decode payload
        = some (exit_pool_inner_msg (.int 15) (.str "persistence1recipient")
            (.list [nativeAsset "uxprt"]) (.int 1000)) ∧
      (execute_vault_exit_pool bcOkResult ⟨"sender"⟩ "vault" "lptoken"
          (.int 1000) (.int 15) (.str "persistence1recipient")
          (.list [nativeAsset "uxprt"]) (.int 1000)).2 =
        [⟨[⟨"sender", "lptoken",
            .dict [(.str "send", .dict
              [(.str "contract_addr", .str "vault"), (.str "amount", .int 1000),
               (.str "msg", .str payload)])]⟩], dexterFee⟩] :=
  exit_pool_payload_roundtrip bcOkResult ⟨"sender"⟩ "vault" "lptoken"
    (.int 1000) (.int 15) (.str "persistence1recipient")
    (.list [nativeAsset "uxprt"]) (.int 1000)
    (by decide) (by decide) (by decide) (by decide)
